import Mathlib

/-!
Token lifecycle and recursive summation.

A shallow embedding of `internal/service` (credential validation, token
issuance, the ordered token verification chain, `sumNumbers` and `Sum`) and
of the transport layer of `app` (`toTransportError`,
`extractTokenFromHeader`, `sumHandler`), together with the properties proved
about them.

Conventions of the embedding

* A Go `error` is an `Option GoError`; `none` is the `nil` error.  Only the
  chain of wrapped errors is modelled (what `errors.Is` and `errors.Unwrap`
  observe); the text of messages is reduced to the literal prefix of the
  format string.
* Clock readings are Unix seconds, as integers.  Every `time.Now()` in the
  source is a separate parameter of the embedded function.  The wrap-around
  of `int64` is not modelled: it would need a clock within an hour of the
  largest `int64` second.
* The compact serialisation of a JWT is modelled by its abstract syntax
  (`TokenString`); the MAC and the encoder are parameters (`HS256`), so that
  every statement holds for whatever function HMAC-SHA-256 is.
* `float64` is modelled by `Float64`, with IEEE-754 round-to-nearest-even
  addition.  `strconv.ParseFloat` is a parameter of `sumNumbers`.
* The library functions behind `Sum` (the verbs `%f` and `%x` of `fmt`,
  `sha256.Sum256`) are modelled in full, so that digests can be computed.
-/

namespace Service

/-! ## Errors (`internal/service/errors.go`) -/

/-- The identity of each `errors.New` value declared in `errors.go`. -/
inductive Sentinel
  | PasswordInvalid
  | TokenInvalidExpiration
  | TokenInvalid
  | TokenInvalidAudience
  | TokenInvalidIssuer
  | UnsupportedValueType
  | UsernameInvalid
  deriving DecidableEq, Repr

/-- Non-nil Go errors that the service can produce or pass on.
`jwtValidation` is a `*jwt.ValidationError` of the JWT library with its
`Errors` bit field; `wrapped` is the result of `fmt.Errorf` with one `%w`
operand, `context` being the literal prefix of its format string. -/
inductive GoError
  | sentinel (s : Sentinel)
  | jwtValidation (errors : Nat)
  | wrapped (context : String) (inner : GoError)
  deriving DecidableEq, Repr

def ErrPasswordInvalid : GoError := .sentinel .PasswordInvalid
def ErrTokenInvalidExpiration : GoError := .sentinel .TokenInvalidExpiration
def ErrTokenInvalid : GoError := .sentinel .TokenInvalid
def ErrTokenInvalidAudience : GoError := .sentinel .TokenInvalidAudience
def ErrTokenInvalidIssuer : GoError := .sentinel .TokenInvalidIssuer
def ErrUnsupportedValueType : GoError := .sentinel .UnsupportedValueType
def ErrUsernameInvalid : GoError := .sentinel .UsernameInvalid

/-- Go `errors.Unwrap`: the `%w` operand of a wrapped error, `nil` otherwise. -/
def errorsUnwrap : Option GoError → Option GoError
  | some (.wrapped _ inner) => some inner
  | _ => none

/-- Chain walk of Go `errors.Is` on a non-nil error, for a target that is
one of the sentinels: the error is the sentinel itself, or wraps an error
that is.  A `*jwt.ValidationError` is never one of the service sentinels and
wraps none of them. -/
def GoError.is : GoError → Sentinel → Bool
  | .sentinel s, target => decide (s = target)
  | .jwtValidation _, _ => false
  | .wrapped _ inner, target => inner.is target

/-- Go `errors.Is(err, target)` for a sentinel target; `false` on `nil`. -/
def errorsIs : Option GoError → Sentinel → Bool
  | none, _ => false
  | some e, target => e.is target

/-! ## Models (`internal/service/models.go`) -/

structure Credentials where
  Username : String
  Password : String
  deriving DecidableEq, Repr

/-- Source: `func (c Credentials) validate() error`. -/
def Credentials.validate (c : Credentials) : Option GoError :=
  if c.Username = "" then some ErrUsernameInvalid
  else if c.Password = "" then some ErrPasswordInvalid
  else none

/-! ## The JWT library as used by the service

`github.com/golang-jwt/jwt` (v3): `StandardClaims`, its verification
helpers, `StandardClaims.Valid`, `Token.SignedString` and
`ParseWithClaims` for the `HS256` method with a `[]byte` key. -/

/-- Library type `jwt.StandardClaims`.  A numeric claim equal to `0` and a
string claim equal to `""` are omitted from the JSON (`omitempty`) and read
back as such: they are the absent claims. -/
structure StandardClaims where
  Audience : String
  ExpiresAt : Int
  Id : String
  IssuedAt : Int
  Issuer : String
  NotBefore : Int
  Subject : String
  deriving DecidableEq, Repr

/-- Source: `type Claims struct { jwt.StandardClaims }`. -/
abbrev Claims := StandardClaims

def ValidationErrorMalformed : Nat := 1
def ValidationErrorSignatureInvalid : Nat := 4
def ValidationErrorExpired : Nat := 16
def ValidationErrorIssuedAt : Nat := 32
def ValidationErrorNotValidYet : Nat := 128
def ValidationErrorClaimsInvalid : Nat := 512

/-- Library `verifyExp`: an absent expiry passes only when not required;
a present one passes when `now <= exp`. -/
def verifyExp (exp now : Int) (required : Bool) : Bool :=
  if exp = 0 then !required else decide (now ≤ exp)

/-- Library `verifyIat`. -/
def verifyIat (iat now : Int) (required : Bool) : Bool :=
  if iat = 0 then !required else decide (now ≥ iat)

/-- Library `verifyNbf`. -/
def verifyNbf (nbf now : Int) (required : Bool) : Bool :=
  if nbf = 0 then !required else decide (now ≥ nbf)

/-- Library `verifyIss`; the constant-time comparison is string equality. -/
def verifyIss (iss cmp : String) (required : Bool) : Bool :=
  if iss = "" then !required else decide (iss = cmp)

/-- Library `verifyAud` over the list of audiences of the claim. -/
def verifyAud (aud : List String) (cmp : String) (required : Bool) : Bool :=
  if aud.length = 0 then !required
  else
    let result := aud.any (fun a => decide (a = cmp))
    let stringClaims := String.join aud
    if stringClaims = "" then !required else result

def StandardClaims.VerifyAudience (c : StandardClaims) (cmp : String) (req : Bool) : Bool :=
  verifyAud [c.Audience] cmp req

def StandardClaims.VerifyExpiresAt (c : StandardClaims) (cmp : Int) (req : Bool) : Bool :=
  verifyExp c.ExpiresAt cmp req

def StandardClaims.VerifyIssuedAt (c : StandardClaims) (cmp : Int) (req : Bool) : Bool :=
  verifyIat c.IssuedAt cmp req

def StandardClaims.VerifyIssuer (c : StandardClaims) (cmp : String) (req : Bool) : Bool :=
  verifyIss c.Issuer cmp req

def StandardClaims.VerifyNotBefore (c : StandardClaims) (cmp : Int) (req : Bool) : Bool :=
  verifyNbf c.NotBefore cmp req

/-- Library `StandardClaims.Valid` at the clock reading `now`: the time
claims are optional, and each one present must hold; the failures are
collected in the bit field of a `ValidationError` (the flags are distinct
bits, each set at most once, so their bitwise or is their sum). -/
def StandardClaims.Valid (c : StandardClaims) (now : Int) : Option GoError :=
  let e1 := if c.VerifyExpiresAt now false then 0 else ValidationErrorExpired
  let e2 := if c.VerifyIssuedAt now false then 0 else ValidationErrorIssuedAt
  let e3 := if c.VerifyNotBefore now false then 0 else ValidationErrorNotValidYet
  let errors := e1 + e2 + e3
  if errors = 0 then none else some (.jwtValidation errors)

/-- What stands for HMAC-SHA-256 and for the encoder of the signed part of a
token (`base64url(header) . base64url(JSON claims)`).  Both are left
arbitrary. -/
structure HS256 where
  SigningString : StandardClaims → String
  Sign : String → List UInt8 → List UInt8

/-- Abstract syntax of a token string.  `compact s c sig` is a
three-segment string whose header names `HS256`, whose first two segments
are `s`, whose claims segment decodes to `c` and whose third segment decodes
to `sig`.  `malformed raw` stands for the strings that the library rejects
whatever the key and the clock: a wrong number of segments, a segment that
does not decode, a signing method that a `[]byte` key cannot verify (the
model reports the flag `ValidationErrorMalformed` for all of them). -/
inductive TokenString
  | malformed (raw : String)
  | compact (signingString : String) (claims : StandardClaims) (signature : List UInt8)
  deriving DecidableEq, Repr

/-- Library `Token.SignedString` for `SigningMethodHS256` and a `[]byte`
key, which cannot fail. -/
def SignedString (lib : HS256) (claims : Claims) (key : List UInt8) : Except GoError TokenString :=
  let sstr := lib.SigningString claims
  .ok (.compact sstr claims (lib.Sign sstr key))

/-- The fields of the library `jwt.Token` read by the service. -/
structure JwtToken where
  Claims : StandardClaims
  Valid : Bool
  deriving DecidableEq, Repr

/-- Library `ParseWithClaims` with the key function of the service (always
`key`, never an error).  `now` is the reading of the library clock
(`TimeFunc`).  The claims are validated, then the signature is checked; the
token is returned as valid exactly when neither step set a flag. -/
def ParseWithClaims (lib : HS256) (key : List UInt8) (now : Int) :
    TokenString → Except GoError JwtToken
  | .malformed _ => .error (.jwtValidation ValidationErrorMalformed)
  | .compact sstr claims sig =>
    let claimErrors :=
      match claims.Valid now with
      | none => 0
      | some (.jwtValidation e) => e
      | some _ => ValidationErrorClaimsInvalid
    let sigErrors :=
      if sig = lib.Sign sstr key then 0 else ValidationErrorSignatureInvalid
    let errors := claimErrors + sigErrors
    if errors = 0 then .ok { Claims := claims, Valid := true }
    else .error (.jwtValidation errors)

/-! ## The service (`internal/service/service_default.go`) -/

/-- One second, in the nanoseconds of `time.Duration`. -/
def second : Int := 1000000000

/-- Source: `jtwClaimDuration time.Duration = time.Hour`. -/
def jtwClaimDuration : Int := 3600 * second

def jwtClaimIssuer : String := "foo-issuer"
def jwtClaimAudience : String := "foo-audience"
def tokenType : String := "Bearer"

/-- Source: `type Token struct` of `models.go`. -/
structure Token where
  AccessToken : TokenString
  TokenType : String
  ExpiresIn : Int
  deriving DecidableEq, Repr

/-- Source: `DefaultService.GenerateToken`.  `now` is the clock reading used
for the expiry and `nowId` the one used for the token id. -/
def GenerateToken (lib : HS256) (jwtKey : List UInt8) (now nowId : Int)
    (creds : Credentials) : Except GoError Token :=
  match creds.validate with
  | some err => .error (.wrapped "could not invalid credentials" err)
  | none =>
    let claims : Claims :=
      { ExpiresAt := now + jtwClaimDuration / second
        Issuer := jwtClaimIssuer
        Audience := jwtClaimAudience
        Subject := creds.Username
        Id := toString nowId
        IssuedAt := 0
        NotBefore := 0 }
    match SignedString lib claims jwtKey with
    | .error err => .error (.wrapped "could not sign token" err)
    | .ok signedToken =>
      .ok { AccessToken := signedToken
            TokenType := tokenType
            ExpiresIn := jtwClaimDuration / second }

/-- Source: `DefaultService.VerifyToken`.  `nowParse` is the clock reading
of the library during `ParseWithClaims`, `nowCheck` the reading of
`time.Now()` for the expiry check of the service. -/
def VerifyToken (lib : HS256) (jwtKey : List UInt8) (nowParse nowCheck : Int)
    (token : TokenString) : Option GoError :=
  match ParseWithClaims lib jwtKey nowParse token with
  | .error err => some (.wrapped "could not parse token" err)
  | .ok tkn =>
    if !tkn.Valid then some ErrTokenInvalid
    else if !tkn.Claims.VerifyExpiresAt nowCheck true then some ErrTokenInvalidExpiration
    else if !tkn.Claims.VerifyIssuer jwtClaimIssuer true then some ErrTokenInvalidIssuer
    else if !tkn.Claims.VerifyAudience jwtClaimAudience true then some ErrTokenInvalidAudience
    else none

/-- The claims carried by a token string, when it has any. -/
def TokenString.claims? : TokenString → Option StandardClaims
  | .malformed _ => none
  | .compact _ c _ => some c

/-- A toy instance of `HS256`, for evaluating the definitions. -/
def toyHS256 : HS256 where
  SigningString := fun c => c.Subject ++ "." ++ c.Issuer ++ "." ++ c.Audience
  Sign := fun s key => UInt8.ofNat s.length :: key

/-- What `GenerateToken` signs for non-empty credentials. -/
def issuedClaims (now nowId : Int) (creds : Credentials) : Claims :=
  { ExpiresAt := now + 3600
    Issuer := jwtClaimIssuer
    Audience := jwtClaimAudience
    Subject := creds.Username
    Id := toString nowId
    IssuedAt := 0
    NotBefore := 0 }

/-- A claim set as the tests build it: subject, issuer, audience and expiry,
the other claims absent. -/
def testClaims (sub iss aud : String) (exp : Int) : Claims :=
  { Subject := sub, Issuer := iss, Audience := aud, ExpiresAt := exp
    Id := "", IssuedAt := 0, NotBefore := 0 }

/-- The token string that `SignedString` returns for `claims` under `key`. -/
def signedWith (lib : HS256) (key : List UInt8) (claims : Claims) : TokenString :=
  .compact (lib.SigningString claims) claims (lib.Sign (lib.SigningString claims) key)

/-- The bytes of the key `"test-key"` of the tests. -/
def testKey : List UInt8 := [116, 101, 115, 116, 45, 107, 101, 121]

/-- Issue, then verify the issued token with the same key: the error
returned by `VerifyToken`, or the error of `GenerateToken`. -/
def issueThenVerify (lib : HS256) (key : List UInt8) (now nowId nowParse nowCheck : Int)
    (creds : Credentials) : Except GoError (Option GoError) :=
  match GenerateToken lib key now nowId creds with
  | .error e => .error e
  | .ok t => .ok (VerifyToken lib key nowParse nowCheck t.AccessToken)

/-- The bytes of the key `"foo-key"` of `TestDefaultService_GenerateToken`. -/
def fooKey : List UInt8 := [102, 111, 111, 45, 107, 101, 121]

/-- Issuer and audience of the claims signed into the token returned by
`GenerateToken`, when it returns one. -/
def issuerAndAudience : Except GoError Token → Option (String × String)
  | .ok t => t.AccessToken.claims?.map (fun c => (c.Issuer, c.Audience))
  | .error _ => none

/-! ## `float64` -/

/-- A `float64` value.  `finite neg m e` is the number `(-1)^neg * m * 2^e`
with `m ≠ 0`; the values of the format are those with `m < 2^53` and
`-1074 ≤ e ≤ 971`, written with `2^52 ≤ m` unless `e = -1074`.  There is one
`nan` (payloads are not modelled).  Equality is identity of values: `nan`
equals itself and the two zeros differ. -/
inductive Float64
  | nan
  | inf (neg : Bool)
  | zero (neg : Bool)
  | finite (neg : Bool) (m : Nat) (e : Int)
  deriving DecidableEq, Repr

/-- Number of binary digits of `n`, by halving (`fuel` bounds the steps). -/
def bitLenAux : Nat → Nat → Nat
  | 0, _ => 0
  | fuel + 1, n => if n = 0 then 0 else bitLenAux fuel (n / 2) + 1

/-- Number of binary digits of `n`; `0` for `0`. -/
def bitLen (n : Nat) : Nat := bitLenAux n n

namespace Float64

/-- The `float64` nearest to `(-1)^neg * m * 2^e`, ties to the even
significand; overflow gives an infinity, underflow a zero. -/
def round (neg : Bool) (m : Nat) (e : Int) : Float64 :=
  if m = 0 then .zero neg
  else
    let shift : Int := max ((bitLen m : Int) - 53) (-1074 - e)
    if shift ≤ 0 then
      if e + shift > 971 then .inf neg
      else .finite neg (m * 2 ^ (-shift).toNat) (e + shift)
    else
      let k := shift.toNat
      let q := m / 2 ^ k
      let r := m % 2 ^ k
      let half := 2 ^ (k - 1)
      let q1 := if r > half ∨ (r = half ∧ q % 2 = 1) then q + 1 else q
      let q2 := if q1 = 2 ^ 53 then 2 ^ 52 else q1
      let e2 := if q1 = 2 ^ 53 then e + shift + 1 else e + shift
      if q2 = 0 then .zero neg
      else if e2 > 971 then .inf neg
      else .finite neg q2 e2

/-- IEEE-754 addition, round to nearest even: the Go `+` on `float64`. -/
def add : Float64 → Float64 → Float64
  | .nan, _ => .nan
  | _, .nan => .nan
  | .inf a, .inf b => if a = b then .inf a else .nan
  | .inf a, _ => .inf a
  | _, .inf b => .inf b
  | .zero a, .zero b => .zero (a && b)
  | .zero _, y => y
  | x, .zero _ => x
  | .finite s1 m1 e1, .finite s2 m2 e2 =>
    let e := min e1 e2
    let a : Int := (if s1 then -1 else 1) * ((m1 * 2 ^ (e1 - e).toNat : Nat) : Int)
    let b : Int := (if s2 then -1 else 1) * ((m2 * 2 ^ (e2 - e).toNat : Nat) : Int)
    let s := a + b
    if s = 0 then .zero false else round (decide (s < 0)) s.natAbs e

instance : Add Float64 := ⟨add⟩

/-- The zero value of `float64` (`var sum float64`, the literal `0`). -/
instance : Zero Float64 := ⟨.zero false⟩

/-- Go conversion `float64(v)` of an integer. -/
def ofInt (v : Int) : Float64 := round (decide (v < 0)) v.natAbs 0

end Float64

/-! ## `sumNumbers` (`internal/service/service_default.go`) -/

/-- The dynamic value of a Go `any`, by the cases of the type switch of
`sumNumbers`.  The entries of a `map[string]any` are listed in the order in
which the `range` loop visits them.  `other goType` is a value of any
dynamic type that the switch does not name (pointer, function, channel,
struct, a slice or map of another type, ...); `bool` is one of them, kept
apart because the tests use it. -/
inductive GoValue
  | nil
  | float64 (val : Float64)
  | int (val : Int)
  | string (val : String)
  | sliceFloat64 (val : List Float64)
  | sliceInt (val : List Int)
  | sliceString (val : List String)
  | sliceAny (val : List GoValue)
  | mapStringAny (val : List (String × GoValue))
  | bool (val : Bool)
  | other (goType : String)

/-- The loop of the `[]string` case of `sumNumbers`, from the running total
`sum`.  `ParseFloat s` is `none` when `strconv.ParseFloat(s, 64)` returns an
error. -/
def sumStringLoop (ParseFloat : String → Option Float64) (sum : Float64) :
    List String → Float64 × Option GoError
  | [] => (sum, none)
  | v :: rest =>
    if v = "" then sumStringLoop ParseFloat sum rest
    else
      match ParseFloat v with
      | none => (0, some (.wrapped "could not parse string to float" ErrUnsupportedValueType))
      | some num => sumStringLoop ParseFloat (sum + num) rest

mutual
/-- Source: `func sumNumbers(data any) (float64, error)`.  `ParseFloat`
stands for `strconv.ParseFloat(·, 64)`. -/
def sumNumbers (ParseFloat : String → Option Float64) : GoValue → Float64 × Option GoError
  | .nil => (0, none)
  | .float64 val => (val, none)
  | .int val => (Float64.ofInt val, none)
  | .string val =>
    if val = "" then (0, none)
    else
      match ParseFloat val with
      | none => (0, some (.wrapped "could not parse string to float" ErrUnsupportedValueType))
      | some num => (num, none)
  | .sliceFloat64 val => (val.foldl (fun sum v => sum + v) 0, none)
  | .sliceInt val => (val.foldl (fun sum v => sum + Float64.ofInt v) 0, none)
  | .sliceString val => sumStringLoop ParseFloat 0 val
  | .sliceAny val => sumAnyLoop ParseFloat 0 val
  | .mapStringAny val => sumMapLoop ParseFloat 0 val
  | .bool _ => (0, some ErrUnsupportedValueType)
  | .other _ => (0, some ErrUnsupportedValueType)
/-- The loop of the `[]any` case of `sumNumbers`, from the running total `sum`. -/
def sumAnyLoop (ParseFloat : String → Option Float64) (sum : Float64) :
    List GoValue → Float64 × Option GoError
  | [] => (sum, none)
  | v :: rest =>
    match sumNumbers ParseFloat v with
    | (_, some _) => (0, some (.wrapped "could not sum numbers" ErrUnsupportedValueType))
    | (result, none) => sumAnyLoop ParseFloat (sum + result) rest
/-- The loop of the `map[string]any` case of `sumNumbers`. -/
def sumMapLoop (ParseFloat : String → Option Float64) (sum : Float64) :
    List (String × GoValue) → Float64 × Option GoError
  | [] => (sum, none)
  | kv :: rest =>
    match sumNumbers ParseFloat kv.2 with
    | (_, some _) => (0, some (.wrapped "could not sum numbers" ErrUnsupportedValueType))
    | (result, none) => sumMapLoop ParseFloat (sum + result) rest
end

/-- A stand-in for `strconv.ParseFloat` on a few inputs of the tests, for
evaluating the definitions: `"1"` and `"3"` parse, every other string is
taken not to. -/
def toyParseFloat (s : String) : Option Float64 :=
  if s = "1" then some (Float64.ofInt 1)
  else if s = "3" then some (Float64.ofInt 3)
  else none

mutual
/-- The failure condition of `sumNumbers` in the words of the specification:
the value contains, at any depth reached through `[]any` elements and
`map[string]any` values, a leaf of an unsupported shape or a non-empty
string that does not parse (also as an element of a `[]string`). -/
def GoValue.hasBadLeaf (ParseFloat : String → Option Float64) : GoValue → Bool
  | .nil => false
  | .float64 _ => false
  | .int _ => false
  | .string val => decide (val ≠ "") && (ParseFloat val).isNone
  | .sliceFloat64 _ => false
  | .sliceInt _ => false
  | .sliceString val => val.any (fun s => decide (s ≠ "") && (ParseFloat s).isNone)
  | .sliceAny val => anyHasBadLeaf ParseFloat val
  | .mapStringAny val => anyEntryHasBadLeaf ParseFloat val
  | .bool _ => true
  | .other _ => true
/-- Some value of the list has a bad leaf. -/
def anyHasBadLeaf (ParseFloat : String → Option Float64) : List GoValue → Bool
  | [] => false
  | v :: rest => v.hasBadLeaf ParseFloat || anyHasBadLeaf ParseFloat rest
/-- Some value of the entries has a bad leaf. -/
def anyEntryHasBadLeaf (ParseFloat : String → Option Float64) : List (String × GoValue) → Bool
  | [] => false
  | kv :: rest => kv.2.hasBadLeaf ParseFloat || anyEntryHasBadLeaf ParseFloat rest
end

/-- The value `v` wrapped in `n` nested singleton `[]any` sequences. -/
def wrapSingleton : Nat → GoValue → GoValue
  | 0, v => v
  | n + 1, v => .sliceAny [wrapSingleton n v]

/-! ## The transport layer (`app/errors.go`, `app/rest.go`) -/

namespace App

/-- Source: `type APIError struct` of `app/errors.go`. -/
structure APIError where
  StatusCode : Int
  Description : String
  deriving DecidableEq, Repr

def StatusBadRequest : Int := 400
def StatusUnauthorized : Int := 401
def StatusUnprocessableEntity : Int := 422
def StatusInternalServerError : Int := 500

def ErrInvalidRequest : APIError := ⟨StatusBadRequest, "the request is invalid"⟩
def ErrInvalidUsername : APIError := ⟨StatusBadRequest, "the username is invalid"⟩
def ErrInvalidPassword : APIError := ⟨StatusBadRequest, "the password is invalid"⟩
def ErrUnsupportedValueType : APIError :=
  ⟨StatusUnprocessableEntity, "the value type is unsupported"⟩
def ErrUnauthorized : APIError := ⟨StatusUnauthorized, "unauthorized"⟩
def ErrInternal : APIError := ⟨StatusInternalServerError, "internal server error"⟩

/-- Source: `toTransportError`.  The function looks at its argument only
through `errors.Is` against the sentinels of the service, so an arbitrary Go
error is given by those answers: `errIs s` is `errors.Is(err, s)`.  For an
error `err` of the embedding it is `errorsIs err`. -/
def toTransportError (errIs : Sentinel → Bool) : APIError :=
  if errIs .UsernameInvalid then ErrInvalidUsername
  else if errIs .PasswordInvalid then ErrInvalidPassword
  else if errIs .TokenInvalid then ErrUnauthorized
  else if errIs .TokenInvalidExpiration then ErrUnauthorized
  else if errIs .TokenInvalidIssuer then ErrUnauthorized
  else if errIs .TokenInvalidAudience then ErrUnauthorized
  else if errIs .UnsupportedValueType then ErrUnsupportedValueType
  else ErrInternal

def bearerPrefix : String := "Bearer "

/-- Source: `extractTokenFromHeader`.  The prefix is ASCII, so slicing off
its `len(bearerPrefix)` bytes after a successful `strings.HasPrefix` drops as
many characters. -/
def extractTokenFromHeader (authHeader : String) : String :=
  if bearerPrefix.data.isPrefixOf authHeader.data then
    ⟨authHeader.data.drop bearerPrefix.length⟩
  else ""

/-- The methods of the `service.Service` interface that `sumHandler` calls. -/
structure ServiceMethods where
  VerifyToken : String → Option GoError
  Sum : GoValue → String × Option GoError

/-- A call made to the service. -/
inductive ServiceCall
  | VerifyToken (token : String)
  | Sum (data : GoValue)

/-- What a handler writes: `writeJSONError` with an `APIError` (its status
code and JSON body), or `writeJSON` with a `sumResponse`. -/
inductive Response
  | jsonError (e : APIError)
  | sumResponse (sum : String)

/-- Source: `RESTApp.sumHandler`.  `authorization` is the value of the
`Authorization` header (`""` when absent), `body` the request body decoded
as JSON into an `any` (`none` when decoding fails).  The result is the
response written and the calls made to the service, in order. -/
def sumHandler (svc : ServiceMethods) (authorization : String) (body : Option GoValue) :
    Response × List ServiceCall :=
  let tokenString := extractTokenFromHeader authorization
  if tokenString = "" then (.jsonError ErrUnauthorized, [])
  else
    match body with
    | none => (.jsonError ErrInvalidRequest, [])
    | some sumReq =>
      match svc.VerifyToken tokenString with
      | some _ => (.jsonError ErrUnauthorized, [.VerifyToken tokenString])
      | none =>
        match svc.Sum sumReq with
        | (_, some err) =>
          (.jsonError (toTransportError (errorsIs (some err))),
            [.VerifyToken tokenString, .Sum sumReq])
        | (sum, none) => (.sumResponse sum, [.VerifyToken tokenString, .Sum sumReq])

/-- A service whose verification accepts every token and whose `Sum`
answers `"abcd"`, as the mock of `TestSumHandler`. -/
def mockService : ServiceMethods where
  VerifyToken := fun _ => none
  Sum := fun _ => ("abcd", none)

end App

/-- Every finite value of the `float64` format has a non-zero significand
and an exponent of at least `-1074`, the exponent of the least subnormal.
`Regular` says that much of a value of the model. -/
def Float64.Regular : Float64 → Prop
  | .finite _ m e => m ≠ 0 ∧ -1074 ≤ e
  | _ => True

/-- The `float64` nearest to `(-1)^neg * p / q`, for `q ≠ 0`: the quotient is
taken with more than 53 binary digits and a sticky last digit, then rounded. -/
def Float64.ofRatio (neg : Bool) (p q : Nat) : Float64 :=
  if p = 0 then .zero neg
  else
    let k := 55 + bitLen q
    let n := p * 2 ^ k
    let sticky := if n % q = 0 then 0 else 1
    Float64.round neg (2 * (n / q) + sticky) (-(k : Int) - 1)

/-- The value of a Go decimal literal `digits * 10^(-scale)`, such as `3.2`
(`ofDecimal 32 1`). -/
def Float64.ofDecimal (digits scale : Nat) : Float64 :=
  Float64.ofRatio false digits (10 ^ scale)

/-- Two results of `sumNumbers` agree: both succeed with the same total, or
both fail with the total `0` and an error that is
`ErrUnsupportedValueType`. -/
def sameOutcome (r1 r2 : Float64 × Option GoError) : Prop :=
  (r1.2 = none ∧ r2.2 = none ∧ r1.1 = r2.1) ∨
  (r1.1 = 0 ∧ r2.1 = 0 ∧ errorsIs r1.2 .UnsupportedValueType = true ∧
    errorsIs r2.2 .UnsupportedValueType = true)

/-! ## `DefaultService.Sum`: formatting, SHA-256, hexadecimal -/

/-- The character of the decimal digit `d < 10`. -/
def digitChar (d : Nat) : Char := "0123456789".data.getD d '0'

/-- The decimal digits of `n`, most significant first, put before `acc`;
`fuel` bounds the number of digits. -/
def decimalAux : Nat → Nat → List Char → List Char
  | 0, _, acc => acc
  | fuel + 1, n, acc =>
    if n < 10 then digitChar n :: acc
    else decimalAux fuel (n / 10) (digitChar (n % 10) :: acc)

/-- The decimal digits of `n` without leading zeros (`0` for zero). -/
def decimal (n : Nat) : List Char := decimalAux (n + 1) n []

/-- The six decimal digits of `k < 10^6`, leading zeros included. -/
def sixDigits (k : Nat) : List Char :=
  [digitChar (k / 100000 % 10), digitChar (k / 10000 % 10), digitChar (k / 1000 % 10),
   digitChar (k / 100 % 10), digitChar (k / 10 % 10), digitChar (k % 10)]

/-- The number of millionths printed for the magnitude `m * 2^e`: the exact
value of `m * 2^e * 10^6` rounded to an integer, halves to the even one. -/
def scaledMillionths (m : Nat) (e : Int) : Nat :=
  if 0 ≤ e then m * 2 ^ e.toNat * 10 ^ 6
  else
    let den := 2 ^ (-e).toNat
    let num := m * 10 ^ 6
    let q := num / den
    let r := num % den
    if 2 * r > den ∨ (2 * r = den ∧ q % 2 = 1) then q + 1 else q

/-- Go `fmt.Sprintf("%f", x)`: fixed-point notation with six fractional
digits, the exact value being rounded to the nearest multiple of `10^-6`,
ties to even; the verb prints `NaN`, `+Inf` and `-Inf` for the values that
are not numbers, and keeps the sign of a negative zero. -/
def sprintfF : Float64 → String
  | .nan => "NaN"
  | .inf false => "+Inf"
  | .inf true => "-Inf"
  | .zero neg => (if neg then "-" else "") ++ "0.000000"
  | .finite neg m e =>
    let scaled := scaledMillionths m e
    String.mk ((if neg then ['-'] else []) ++ decimal (scaled / 10 ^ 6) ++
      '.' :: sixDigits (scaled % 10 ^ 6))

/-- The text without its leading minus sign, if it has one. -/
def unsignedPart (s : String) : List Char :=
  if s.data.head? = some '-' then s.data.drop 1 else s.data

/-- The text is in fixed-point notation with six fractional digits: an
optional minus sign, one or more decimal digits without a superfluous
leading zero, a point, and exactly six decimal digits. -/
def isFixedPoint6 (s : String) : Bool :=
  let body := unsignedPart s
  let ip := body.takeWhile (fun c => c != '.')
  let rest := body.dropWhile (fun c => c != '.')
  !ip.isEmpty && ip.all Char.isDigit && (ip == ['0'] || ip.head? != some '0') &&
    rest.head? == some '.' && (rest.drop 1).length == 6 && (rest.drop 1).all Char.isDigit

/-- The number that a list of decimal digits denotes. -/
def digitsValue (cs : List Char) : Nat :=
  cs.foldl (fun v c => 10 * v + (c.toNat - 48)) 0

/-- The number of millionths that a fixed-point text with six fractional
digits denotes, sign apart: the number written by its digits. -/
def millionthsOf (s : String) : Nat := digitsValue (s.data.filter Char.isDigit)

/-- The natural number `n` is the integer nearest to `m * 2^e * 10^6`, the
even one of the two when that value lies halfway between two integers. -/
def IsNearestMillionths (m : Nat) (e : Int) (n : Nat) : Prop :=
  let p := m * 10 ^ 6 * 2 ^ e.toNat
  let d := 2 ^ (-e).toNat
  2 * (n * d) ≤ 2 * p + d ∧ 2 * p ≤ 2 * (n * d) + d ∧
    ((2 * (n * d) = 2 * p + d ∨ 2 * p = 2 * (n * d) + d) → n % 2 = 0)

/-- The largest finite `float64`, `1.7976931348623157e308`. -/
def Float64.maxFinite : Float64 := .finite false 9007199254740991 971

/-- Go `[]byte(s)` for a text of ASCII characters, as every output of
`sprintfF` is: the codes of its characters. -/
def asciiBytes (s : String) : List Nat := s.data.map Char.toNat

/-- Rotation to the right of a 32-bit word. -/
def rotr32 (x n : Nat) : Nat := ((x >>> n) ||| (x <<< (32 - n))) % 2 ^ 32

/-- Bisection for the integer `k`-th root: the root of `n` lies in
`[lo, hi)`; `fuel` bounds the steps. -/
def irootAux (k : Nat) : Nat → Nat → Nat → Nat → Nat
  | 0, _, lo, _ => lo
  | fuel + 1, n, lo, hi =>
    if hi ≤ lo + 1 then lo
    else
      let mid := (lo + hi) / 2
      if mid ^ k ≤ n then irootAux k fuel n mid hi else irootAux k fuel n lo mid

/-- The integer part of the `k`-th root of `n`. -/
def iroot (k n : Nat) : Nat := irootAux k (bitLen n + 1) n 0 (2 ^ bitLen n)

/-- The first sixty-four prime numbers. -/
def first64Primes : List Nat :=
  [2, 3, 5, 7, 11, 13, 17, 19, 23, 29, 31, 37, 41, 43, 47, 53,
   59, 61, 67, 71, 73, 79, 83, 89, 97, 101, 103, 107, 109, 113, 127, 131,
   137, 139, 149, 151, 157, 163, 167, 173, 179, 181, 191, 193, 197, 199, 211, 223,
   227, 229, 233, 239, 241, 251, 257, 263, 269, 271, 277, 281, 283, 293, 307, 311]

/-- The round constants of SHA-256 (FIPS 180-4): the first 32 bits of the
fractional parts of the cube roots of the first sixty-four primes. -/
def sha256K : List Nat := first64Primes.map (fun p => iroot 3 (p * 2 ^ 96) % 2 ^ 32)

/-- The four bytes of a 32-bit word, most significant first. -/
def be32 (w : Nat) : List Nat := [w / 2 ^ 24 % 256, w / 2 ^ 16 % 256, w / 2 ^ 8 % 256, w % 256]

/-- The message followed by the padding of SHA-256: the byte `0x80`, zeros
up to 56 modulo 64, and the bit length of the message on eight bytes. -/
def sha256Pad (msg : List Nat) : List Nat :=
  let bits := 8 * msg.length
  msg ++ [0x80] ++ List.replicate ((119 - msg.length % 64) % 64) 0 ++
    be32 (bits / 2 ^ 32 % 2 ^ 32) ++ be32 (bits % 2 ^ 32)

/-- The big-endian 32-bit words of a list of bytes (a last incomplete group
is dropped; the padded message has none). -/
def wordsOfBytes : List Nat → List Nat
  | b0 :: b1 :: b2 :: b3 :: rest =>
    (b0 * 2 ^ 24 + b1 * 2 ^ 16 + b2 * 2 ^ 8 + b3) :: wordsOfBytes rest
  | _ => []

/-- The message schedule: `n` more words appended to `w`. -/
def sha256Schedule : Nat → List Nat → List Nat
  | 0, w => w
  | n + 1, w =>
    let i := w.length
    let w15 := w.getD (i - 15) 0
    let w2 := w.getD (i - 2) 0
    let s0 := rotr32 w15 7 ^^^ rotr32 w15 18 ^^^ (w15 >>> 3)
    let s1 := rotr32 w2 17 ^^^ rotr32 w2 19 ^^^ (w2 >>> 10)
    sha256Schedule n (w ++ [(w.getD (i - 16) 0 + s0 + w.getD (i - 7) 0 + s1) % 2 ^ 32])

/-- The eight working variables, or the eight words of the hash value. -/
structure Sha256State where
  a : Nat
  b : Nat
  c : Nat
  d : Nat
  e : Nat
  f : Nat
  g : Nat
  h : Nat
  deriving DecidableEq, Repr

/-- One round of the compression function with the constant `k` and the
schedule word `w`. -/
def sha256Round (s : Sha256State) (k w : Nat) : Sha256State :=
  let S1 := rotr32 s.e 6 ^^^ rotr32 s.e 11 ^^^ rotr32 s.e 25
  let ch := (s.e &&& s.f) ^^^ ((s.e ^^^ 0xffffffff) &&& s.g)
  let temp1 := (s.h + S1 + ch + k + w) % 2 ^ 32
  let S0 := rotr32 s.a 2 ^^^ rotr32 s.a 13 ^^^ rotr32 s.a 22
  let maj := (s.a &&& s.b) ^^^ (s.a &&& s.c) ^^^ (s.b &&& s.c)
  let temp2 := (S0 + maj) % 2 ^ 32
  { a := (temp1 + temp2) % 2 ^ 32, b := s.a, c := s.b, d := s.c
    e := (s.d + temp1) % 2 ^ 32, f := s.e, g := s.f, h := s.g }

/-- The rounds over the paired constants and schedule words. -/
def sha256Rounds (s : Sha256State) : List (Nat × Nat) → Sha256State
  | [] => s
  | kw :: rest => sha256Rounds (sha256Round s kw.1 kw.2) rest

/-- The compression of one block of sixteen words into the hash value. -/
def sha256Block (hv : Sha256State) (block : List Nat) : Sha256State :=
  let w := sha256Schedule 48 block
  let s := sha256Rounds hv (sha256K.zip w)
  { a := (hv.a + s.a) % 2 ^ 32, b := (hv.b + s.b) % 2 ^ 32
    c := (hv.c + s.c) % 2 ^ 32, d := (hv.d + s.d) % 2 ^ 32
    e := (hv.e + s.e) % 2 ^ 32, f := (hv.f + s.f) % 2 ^ 32
    g := (hv.g + s.g) % 2 ^ 32, h := (hv.h + s.h) % 2 ^ 32 }

/-- The blocks of the word list, sixteen words each; `fuel` bounds their
number. -/
def sha256Blocks : Nat → Sha256State → List Nat → Sha256State
  | 0, hv, _ => hv
  | fuel + 1, hv, ws =>
    if ws.length < 16 then hv
    else sha256Blocks fuel (sha256Block hv (ws.take 16)) (ws.drop 16)

/-- The word of the initial hash value drawn from the prime `p`: the first
32 bits of the fractional part of its square root. -/
def sha256InitWord (p : Nat) : Nat := iroot 2 (p * 2 ^ 64) % 2 ^ 32

/-- The initial hash value of SHA-256 (FIPS 180-4), from the first eight
primes. -/
def sha256Init : Sha256State :=
  { a := sha256InitWord 2, b := sha256InitWord 3, c := sha256InitWord 5
    d := sha256InitWord 7, e := sha256InitWord 11, f := sha256InitWord 13
    g := sha256InitWord 17, h := sha256InitWord 19 }

/-- Go `sha256.Sum256`: the 32 bytes of the SHA-256 digest of `msg`. -/
def sha256Sum256 (msg : List Nat) : List Nat :=
  let ws := wordsOfBytes (sha256Pad msg)
  let s := sha256Blocks ws.length sha256Init ws
  be32 s.a ++ be32 s.b ++ be32 s.c ++ be32 s.d ++ be32 s.e ++ be32 s.f ++ be32 s.g ++ be32 s.h

/-- The lowercase hexadecimal digit of `n < 16`. -/
def hexDigit (n : Nat) : Char := "0123456789abcdef".data.getD n '0'

/-- Go `fmt.Sprintf("%x", bytes)`: two lowercase hexadecimal digits per byte. -/
def sprintfX : List Nat → String
  | [] => ""
  | b :: rest => String.mk [hexDigit (b / 16 % 16), hexDigit (b % 16)] ++ sprintfX rest

/-- Source: `DefaultService.Sum` (the debug log is not modelled). -/
def DefaultService.Sum (ParseFloat : String → Option Float64) (data : GoValue) :
    String × Option GoError :=
  match sumNumbers ParseFloat data with
  | (_, some err) => ("", some (.wrapped "could not sum numbers" err))
  | (result, none) => (sprintfX (sha256Sum256 (asciiBytes (sprintfF result))), none)

/-! # Properties -/

/-! ## Token service -/

theorem validate_eq_none {c : Credentials} (hu : c.Username ≠ "") (hp : c.Password ≠ "") :
    c.validate = none := by
  simp [Credentials.validate, hu, hp]

theorem generateToken_ok (lib : HS256) (key : List UInt8) (now nowId : Int)
    (creds : Credentials) (hu : creds.Username ≠ "") (hp : creds.Password ≠ "") :
    GenerateToken lib key now nowId creds =
      .ok { AccessToken :=
              .compact (lib.SigningString (issuedClaims now nowId creds))
                (issuedClaims now nowId creds)
                (lib.Sign (lib.SigningString (issuedClaims now nowId creds)) key)
            TokenType := "Bearer"
            ExpiresIn := 3600 } := by
  have h3600 : jtwClaimDuration / second = 3600 := by decide
  simp [GenerateToken, validate_eq_none hu hp, SignedString, issuedClaims, h3600, tokenType]


theorem valid_eq_none {c : StandardClaims} {now : Int}
    (hexp : c.ExpiresAt = 0 ∨ now ≤ c.ExpiresAt)
    (hiat : c.IssuedAt = 0 ∨ c.IssuedAt ≤ now)
    (hnbf : c.NotBefore = 0 ∨ c.NotBefore ≤ now) :
    c.Valid now = none := by
  have h1 : c.VerifyExpiresAt now false = true := by
    unfold StandardClaims.VerifyExpiresAt verifyExp
    rcases hexp with h | h
    · simp [h]
    · by_cases h0 : c.ExpiresAt = 0 <;> simp [h0, h]
  have h2 : c.VerifyIssuedAt now false = true := by
    unfold StandardClaims.VerifyIssuedAt verifyIat
    rcases hiat with h | h
    · simp [h]
    · by_cases h0 : c.IssuedAt = 0 <;> simp [h0, h]
  have h3 : c.VerifyNotBefore now false = true := by
    unfold StandardClaims.VerifyNotBefore verifyNbf
    rcases hnbf with h | h
    · simp [h]
    · by_cases h0 : c.NotBefore = 0 <;> simp [h0, h]
  simp [StandardClaims.Valid, h1, h2, h3]

/-- A token whose signature is the MAC of its signed part under the key of
the service, and whose time claims the library accepts, parses as valid. -/
theorem parseWithClaims_ok (lib : HS256) (key : List UInt8) (now : Int) (sstr : String)
    (c : StandardClaims) (hv : c.Valid now = none) :
    ParseWithClaims lib key now (.compact sstr c (lib.Sign sstr key)) =
      .ok { Claims := c, Valid := true } := by
  simp [ParseWithClaims, hv]

/-- After a successful parse `VerifyToken` is the chain of the three claim
checks, in the order expiry, issuer, audience. -/
theorem verifyToken_of_parse_ok (lib : HS256) (key : List UInt8) (nowParse nowCheck : Int)
    (sstr : String) (c : StandardClaims) (hv : c.Valid nowParse = none) :
    VerifyToken lib key nowParse nowCheck (.compact sstr c (lib.Sign sstr key)) =
      if !c.VerifyExpiresAt nowCheck true then some ErrTokenInvalidExpiration
      else if !c.VerifyIssuer jwtClaimIssuer true then some ErrTokenInvalidIssuer
      else if !c.VerifyAudience jwtClaimAudience true then some ErrTokenInvalidAudience
      else none := by
  simp [VerifyToken, parseWithClaims_ok lib key nowParse sstr c hv]

/-- Every error of `ParseWithClaims` is a `ValidationError` of the library. -/
theorem parseWithClaims_error (lib : HS256) (key : List UInt8) (now : Int) (tok : TokenString)
    (e : GoError) (h : ParseWithClaims lib key now tok = .error e) :
    ∃ flags, e = .jwtValidation flags := by
  cases tok with
  | malformed raw =>
    simp [ParseWithClaims] at h
    exact ⟨_, h.symm⟩
  | compact sstr c sig =>
    simp only [ParseWithClaims] at h
    split_ifs at h <;> exact ⟨_, (Except.error.inj h).symm⟩


/-- Issue, then verify at the same instant: no error, as long as the expiry
`now + 3600` that `GenerateToken` signs is not `0`, the value of an absent
claim. -/
theorem issueThenVerify_of_expiry_present (lib : HS256) (key : List UInt8) (now nowId : Int)
    (creds : Credentials) (hu : creds.Username ≠ "") (hp : creds.Password ≠ "")
    (hnow : now + 3600 ≠ 0) :
    issueThenVerify lib key now nowId now now creds = .ok none := by
  have hv : (issuedClaims now nowId creds).Valid now = none :=
    valid_eq_none (Or.inr (by simp [issuedClaims])) (Or.inl rfl) (Or.inl rfl)
  have hexp : (issuedClaims now nowId creds).VerifyExpiresAt now true = true := by
    simp [StandardClaims.VerifyExpiresAt, verifyExp, issuedClaims, hnow]
  have hiss : (issuedClaims now nowId creds).VerifyIssuer jwtClaimIssuer true = true := by
    simp [StandardClaims.VerifyIssuer, verifyIss, issuedClaims, jwtClaimIssuer]
  have haud : (issuedClaims now nowId creds).VerifyAudience jwtClaimAudience true = true := by
    simp [StandardClaims.VerifyAudience, verifyAud, issuedClaims, jwtClaimAudience,
      String.join]
  simp [issueThenVerify, generateToken_ok lib key now nowId creds hu hp,
    verifyToken_of_parse_ok lib key now now _ _ hv, hexp, hiss, haud]

/-- C1: for every signing key, every credentials with non-empty username
and password, and every issuance instant `now` read from the clock of the
service (Unix seconds; a system clock does not read a time before the epoch),
`VerifyToken` called with the same key at that same instant on the access
token returned by `GenerateToken` returns no error. -/
theorem issue_then_verify_succeeds (lib : HS256) (key : List UInt8) (now nowId : Int)
    (creds : Credentials) (hu : creds.Username ≠ "") (hp : creds.Password ≠ "")
    (hclock : 0 ≤ now) :
    issueThenVerify lib key now nowId now now creds = .ok none :=
  issueThenVerify_of_expiry_present lib key now nowId creds hu hp (by omega)

/-- Witness of C1: the credentials and key of the test "valid token", issued
and verified at Unix time 1700000000. -/
theorem issue_then_verify_succeeds_witness :
    issueThenVerify toyHS256 testKey 1700000000 1700000000 1700000000 1700000000
      ⟨"foo-username", "bar"⟩ = .ok none :=
  issue_then_verify_succeeds toyHS256 testKey 1700000000 1700000000 ⟨"foo-username", "bar"⟩
    (by decide) (by decide) (by decide)

/-- C2: `validate` returns `ErrUsernameInvalid` exactly when the username is
empty (whatever the password), `ErrPasswordInvalid` exactly when the
username is non-empty and the password empty, and `nil` exactly when both
are non-empty; and whenever `validate` fails with `err`, `GenerateToken`
returns no token and an error `e` with `errors.Unwrap(e) = err`. -/
theorem validate_cases_and_generateToken_wraps (c : Credentials) :
    (c.validate = some ErrUsernameInvalid ↔ c.Username = "") ∧
    (c.validate = some ErrPasswordInvalid ↔ c.Username ≠ "" ∧ c.Password = "") ∧
    (c.validate = none ↔ c.Username ≠ "" ∧ c.Password ≠ "") ∧
    (∀ (lib : HS256) (key : List UInt8) (now nowId : Int) (err : GoError),
      c.validate = some err →
        ∃ e, GenerateToken lib key now nowId c = .error e ∧
          errorsUnwrap (some e) = some err) := by
  refine ⟨?_, ?_, ?_, ?_⟩
  · by_cases hu : c.Username = "" <;> by_cases hp : c.Password = "" <;>
      simp [Credentials.validate, hu, hp, ErrUsernameInvalid, ErrPasswordInvalid]
  · by_cases hu : c.Username = "" <;> by_cases hp : c.Password = "" <;>
      simp [Credentials.validate, hu, hp, ErrUsernameInvalid, ErrPasswordInvalid]
  · by_cases hu : c.Username = "" <;> by_cases hp : c.Password = "" <;>
      simp [Credentials.validate, hu, hp, ErrUsernameInvalid, ErrPasswordInvalid]
  · intro lib key now nowId err h
    exact ⟨.wrapped "could not invalid credentials" err, by simp [GenerateToken, h], rfl⟩

/-- Witness of C2: the credentials of the test with an empty username. -/
theorem validate_cases_and_generateToken_wraps_witness :
    ∃ e, GenerateToken toyHS256 [] 0 0 ⟨"", "bar"⟩ = .error e ∧
      errorsUnwrap (some e) = some ErrUsernameInvalid :=
  (validate_cases_and_generateToken_wraps ⟨"", "bar"⟩).2.2.2 toyHS256 [] 0 0
    ErrUsernameInvalid (by decide)


theorem verifyToken_of_parse_error (lib : HS256) (key : List UInt8) (nowParse nowCheck : Int)
    (tok : TokenString) (e : GoError) (h : ParseWithClaims lib key nowParse tok = .error e) :
    VerifyToken lib key nowParse nowCheck tok = some (.wrapped "could not parse token" e) := by
  simp [VerifyToken, h]

/-- A wrapped `ValidationError` of the library is none of the sentinels. -/
theorem errorsIs_wrapped_jwtValidation (ctx : String) (flags : Nat) (s : Sentinel) :
    errorsIs (some (.wrapped ctx (.jwtValidation flags))) s = false := rfl

theorem parseWithClaims_expired (lib : HS256) (key : List UInt8) (now : Int) (sstr : String)
    (c : StandardClaims) (sig : List UInt8) (h0 : c.ExpiresAt ≠ 0) (hlt : c.ExpiresAt < now) :
    ∃ flags, ParseWithClaims lib key now (.compact sstr c sig) = .error (.jwtValidation flags) := by
  have h1 : c.VerifyExpiresAt now false = false := by
    simp [StandardClaims.VerifyExpiresAt, verifyExp, h0, hlt]
  have hne : ∀ a b : Nat, ValidationErrorExpired + a + b ≠ 0 := by
    intro a b
    simp [ValidationErrorExpired]
  simp only [ParseWithClaims, StandardClaims.Valid, h1]
  simp only [Bool.false_eq_true, if_false, hne, Nat.add_eq_zero_iff, false_and]
  exact ⟨_, rfl⟩

/-- C3 (amended): for every validly signed token, whatever its issuer and
audience claims: when `expiresAt` is missing and the other time claims pass
the validation of the library, `VerifyToken` fails with
`ErrTokenInvalidExpiration`; when `expiresAt` is present and lies in the past
at parse time, `VerifyToken` fails with the wrapped validation error of the
library, which is not `ErrTokenInvalidExpiration`. -/
theorem verifyToken_expiry_missing_or_past (lib : HS256) (key : List UInt8)
    (nowParse nowCheck : Int) (sstr : String) (c : StandardClaims) :
    (c.ExpiresAt = 0 → (c.IssuedAt = 0 ∨ c.IssuedAt ≤ nowParse) →
      (c.NotBefore = 0 ∨ c.NotBefore ≤ nowParse) →
      VerifyToken lib key nowParse nowCheck (.compact sstr c (lib.Sign sstr key)) =
        some ErrTokenInvalidExpiration) ∧
    (c.ExpiresAt ≠ 0 → c.ExpiresAt < nowParse →
      (∃ flags, VerifyToken lib key nowParse nowCheck (.compact sstr c (lib.Sign sstr key)) =
        some (.wrapped "could not parse token" (.jwtValidation flags))) ∧
      errorsIs (VerifyToken lib key nowParse nowCheck (.compact sstr c (lib.Sign sstr key)))
        .TokenInvalidExpiration = false) := by
  constructor
  · intro h0 hiat hnbf
    have hv : c.Valid nowParse = none := valid_eq_none (Or.inl h0) hiat hnbf
    simp [verifyToken_of_parse_ok lib key nowParse nowCheck sstr c hv,
      StandardClaims.VerifyExpiresAt, verifyExp, h0]
  · intro h0 hlt
    obtain ⟨flags, hp⟩ := parseWithClaims_expired lib key nowParse sstr c (lib.Sign sstr key) h0 hlt
    rw [verifyToken_of_parse_error lib key nowParse nowCheck _ _ hp]
    exact ⟨⟨flags, rfl⟩, rfl⟩

/-- Witness of C3 (amended): the token of the test "expiration is not set",
and the token of the test "expired token" with the issuer and audience of
the service, both verified at Unix time 1700000000. -/
theorem verifyToken_expiry_missing_or_past_witness :
    VerifyToken toyHS256 testKey 1700000000 1700000000
        (.compact "s" (testClaims "foo-username" "qredo" "qredo" 0) (toyHS256.Sign "s" testKey)) =
      some ErrTokenInvalidExpiration ∧
    errorsIs (VerifyToken toyHS256 testKey 1700000000 1700000000
        (.compact "s" (testClaims "foo-username" jwtClaimIssuer jwtClaimAudience 1699996400)
          (toyHS256.Sign "s" testKey))) .TokenInvalidExpiration = false :=
  ⟨(verifyToken_expiry_missing_or_past toyHS256 testKey 1700000000 1700000000 "s"
      (testClaims "foo-username" "qredo" "qredo" 0)).1 rfl (Or.inl rfl) (Or.inl rfl),
   ((verifyToken_expiry_missing_or_past toyHS256 testKey 1700000000 1700000000 "s"
      (testClaims "foo-username" jwtClaimIssuer jwtClaimAudience 1699996400)).2
      (by decide) (by decide)).2⟩

/-- Counterexample to C3 as stated: a token signed with the key of the
service, with the issuer and audience of the service and an expiry one hour
in the past, makes `VerifyToken` return the wrapped library error, which is
not `ErrTokenInvalidExpiration`. -/
theorem verifyToken_expired_not_sentinel :
    VerifyToken toyHS256 testKey 1700000000 1700000000
        (signedWith toyHS256 testKey
          (testClaims "foo-username" jwtClaimIssuer jwtClaimAudience (1700000000 - 3600))) =
      some (.wrapped "could not parse token" (.jwtValidation ValidationErrorExpired)) ∧
    errorsIs (VerifyToken toyHS256 testKey 1700000000 1700000000
        (signedWith toyHS256 testKey
          (testClaims "foo-username" jwtClaimIssuer jwtClaimAudience (1700000000 - 3600))))
      .TokenInvalidExpiration = false := by
  decide


theorem verifyAudience_single (c : StandardClaims) (cmp : String) :
    c.VerifyAudience cmp true = (decide (c.Audience ≠ "") && decide (c.Audience = cmp)) := by
  by_cases h : c.Audience = "" <;>
    simp [StandardClaims.VerifyAudience, verifyAud, String.join, h]

/-- C4 (amended): for every validly signed token whose time claims pass the
validation of the library at parse time (expiry not before the clock,
`issuedAt` and `notBefore` absent or not after it), whose expiry check
passes and whose issuer claim is absent or differs from the fixed issuer
constant, `VerifyToken` fails with `ErrTokenInvalidIssuer`, whatever the
audience claim is. -/
theorem verifyToken_issuer_invalid (lib : HS256) (key : List UInt8)
    (nowParse nowCheck : Int) (sstr : String) (c : StandardClaims)
    (hparse : nowParse ≤ c.ExpiresAt)
    (hiat : c.IssuedAt = 0 ∨ c.IssuedAt ≤ nowParse)
    (hnbf : c.NotBefore = 0 ∨ c.NotBefore ≤ nowParse)
    (hexp : c.ExpiresAt ≠ 0 ∧ nowCheck ≤ c.ExpiresAt)
    (hiss : c.Issuer = "" ∨ c.Issuer ≠ jwtClaimIssuer) :
    VerifyToken lib key nowParse nowCheck (.compact sstr c (lib.Sign sstr key)) =
        some ErrTokenInvalidIssuer ∧
      errorsIs (VerifyToken lib key nowParse nowCheck (.compact sstr c (lib.Sign sstr key)))
        .TokenInvalidIssuer = true := by
  have hv : c.Valid nowParse = none := valid_eq_none (Or.inr hparse) hiat hnbf
  have h1 : c.VerifyExpiresAt nowCheck true = true := by
    simp [StandardClaims.VerifyExpiresAt, verifyExp, hexp.1, hexp.2]
  have h2 : c.VerifyIssuer jwtClaimIssuer true = false := by
    rcases hiss with h | h
    · simp [StandardClaims.VerifyIssuer, verifyIss, h]
    · by_cases h0 : c.Issuer = "" <;> simp [StandardClaims.VerifyIssuer, verifyIss, h0, h]
  have h : VerifyToken lib key nowParse nowCheck (.compact sstr c (lib.Sign sstr key)) =
      some ErrTokenInvalidIssuer := by
    simp [verifyToken_of_parse_ok lib key nowParse nowCheck sstr c hv, h1, h2]
  exact ⟨h, by rw [h]; rfl⟩

/-- Witness of C4 (amended): the token of the test "issuer is not set". -/
theorem verifyToken_issuer_invalid_witness :
    VerifyToken toyHS256 testKey 1700000000 1700000000
        (.compact "s" (testClaims "foo-username" "" "qredo" 1700003600)
          (toyHS256.Sign "s" testKey)) = some ErrTokenInvalidIssuer ∧
      errorsIs (VerifyToken toyHS256 testKey 1700000000 1700000000
        (.compact "s" (testClaims "foo-username" "" "qredo" 1700003600)
          (toyHS256.Sign "s" testKey))) .TokenInvalidIssuer = true :=
  verifyToken_issuer_invalid toyHS256 testKey 1700000000 1700000000 "s"
    (testClaims "foo-username" "" "qredo" 1700003600)
    (by decide) (Or.inl rfl) (Or.inl rfl) (by decide) (Or.inl rfl)

/-- Counterexample to C4 as stated: a validly signed token without issuer,
expiring in one hour, whose `notBefore` lies one minute ahead: the library
rejects it at parse time and `VerifyToken` returns that error wrapped, which
is not `ErrTokenInvalidIssuer`. -/
theorem verifyToken_not_yet_valid_not_issuer_error :
    VerifyToken toyHS256 testKey 1700000000 1700000000
        (signedWith toyHS256 testKey
          { testClaims "foo-username" "" jwtClaimAudience 1700003600 with
            NotBefore := 1700000060 }) =
      some (.wrapped "could not parse token" (.jwtValidation ValidationErrorNotValidYet)) ∧
    errorsIs (VerifyToken toyHS256 testKey 1700000000 1700000000
        (signedWith toyHS256 testKey
          { testClaims "foo-username" "" jwtClaimAudience 1700003600 with
            NotBefore := 1700000060 })) .TokenInvalidIssuer = false := by
  decide

/-- C5 (amended): for every validly signed token whose time claims pass the
validation of the library at parse time, whose expiry check passes, whose
issuer claim equals the fixed issuer constant and whose audience claim is
absent or differs from the fixed audience constant, `VerifyToken` fails with
`ErrTokenInvalidAudience`. -/
theorem verifyToken_audience_invalid (lib : HS256) (key : List UInt8)
    (nowParse nowCheck : Int) (sstr : String) (c : StandardClaims)
    (hparse : nowParse ≤ c.ExpiresAt)
    (hiat : c.IssuedAt = 0 ∨ c.IssuedAt ≤ nowParse)
    (hnbf : c.NotBefore = 0 ∨ c.NotBefore ≤ nowParse)
    (hexp : c.ExpiresAt ≠ 0 ∧ nowCheck ≤ c.ExpiresAt)
    (hiss : c.Issuer = jwtClaimIssuer)
    (haud : c.Audience = "" ∨ c.Audience ≠ jwtClaimAudience) :
    VerifyToken lib key nowParse nowCheck (.compact sstr c (lib.Sign sstr key)) =
        some ErrTokenInvalidAudience ∧
      errorsIs (VerifyToken lib key nowParse nowCheck (.compact sstr c (lib.Sign sstr key)))
        .TokenInvalidAudience = true := by
  have hv : c.Valid nowParse = none := valid_eq_none (Or.inr hparse) hiat hnbf
  have h1 : c.VerifyExpiresAt nowCheck true = true := by
    simp [StandardClaims.VerifyExpiresAt, verifyExp, hexp.1, hexp.2]
  have h2 : c.VerifyIssuer jwtClaimIssuer true = true := by
    simp [StandardClaims.VerifyIssuer, verifyIss, hiss, jwtClaimIssuer]
  have h3 : c.VerifyAudience jwtClaimAudience true = false := by
    rw [verifyAudience_single]
    rcases haud with h | h <;> simp [h]
  have h : VerifyToken lib key nowParse nowCheck (.compact sstr c (lib.Sign sstr key)) =
      some ErrTokenInvalidAudience := by
    simp [verifyToken_of_parse_ok lib key nowParse nowCheck sstr c hv, h1, h2, h3]
  exact ⟨h, by rw [h]; rfl⟩

/-- Witness of C5 (amended): a token with the issuer of the service, an
expiry one hour ahead and no audience. -/
theorem verifyToken_audience_invalid_witness :
    VerifyToken toyHS256 testKey 1700000000 1700000000
        (.compact "s" (testClaims "foo-username" jwtClaimIssuer "" 1700003600)
          (toyHS256.Sign "s" testKey)) = some ErrTokenInvalidAudience ∧
      errorsIs (VerifyToken toyHS256 testKey 1700000000 1700000000
        (.compact "s" (testClaims "foo-username" jwtClaimIssuer "" 1700003600)
          (toyHS256.Sign "s" testKey))) .TokenInvalidAudience = true :=
  verifyToken_audience_invalid toyHS256 testKey 1700000000 1700000000 "s"
    (testClaims "foo-username" jwtClaimIssuer "" 1700003600)
    (by decide) (Or.inl rfl) (Or.inl rfl) (by decide) rfl (Or.inl rfl)

/-- Counterexample to C5 as stated: a validly signed token with the issuer
`"invalid-issuer"`, an expiry one hour ahead and no audience fails the issuer
check, which comes first: the error is `ErrTokenInvalidIssuer` and not
`ErrTokenInvalidAudience`, so the outcome of a missing audience is not
independent of the issuer claim. -/
theorem verifyToken_audience_unset_invalid_issuer :
    VerifyToken toyHS256 testKey 1700000000 1700000000
        (signedWith toyHS256 testKey
          (testClaims "foo-username" "invalid-issuer" "" 1700003600)) =
      some ErrTokenInvalidIssuer ∧
    errorsIs (VerifyToken toyHS256 testKey 1700000000 1700000000
        (signedWith toyHS256 testKey
          (testClaims "foo-username" "invalid-issuer" "" 1700003600)))
      .TokenInvalidAudience = false := by
  decide

/-- C6 (amended): for every token string that is malformed or whose
signature does not match the key of the service, `VerifyToken` fails with a
non-nil error: the validation error of the library, wrapped, which is not
`ErrTokenInvalid` (nor any other sentinel of the service). -/
theorem verifyToken_malformed_or_bad_signature (lib : HS256) (key : List UInt8)
    (nowParse nowCheck : Int) (tok : TokenString)
    (h : (∃ raw, tok = .malformed raw) ∨
      (∃ sstr c sig, tok = .compact sstr c sig ∧ sig ≠ lib.Sign sstr key)) :
    (∃ flags, VerifyToken lib key nowParse nowCheck tok =
      some (.wrapped "could not parse token" (.jwtValidation flags))) ∧
    (∀ s : Sentinel, errorsIs (VerifyToken lib key nowParse nowCheck tok) s = false) := by
  have hp : ∃ flags, ParseWithClaims lib key nowParse tok = .error (.jwtValidation flags) := by
    rcases h with ⟨raw, rfl⟩ | ⟨sstr, c, sig, rfl, hsig⟩
    · exact ⟨_, rfl⟩
    · simp only [ParseWithClaims, hsig, if_false]
      have hne : ∀ a : Nat, a + ValidationErrorSignatureInvalid ≠ 0 := by
        intro a
        simp [ValidationErrorSignatureInvalid]
      simp only [hne, if_false]
      exact ⟨_, rfl⟩
  obtain ⟨flags, hp⟩ := hp
  rw [verifyToken_of_parse_error lib key nowParse nowCheck _ _ hp]
  exact ⟨⟨flags, rfl⟩, fun s => rfl⟩

/-- Witness of C6 (amended): the input `"invalid-token-string"` of the test. -/
theorem verifyToken_malformed_or_bad_signature_witness :
    (∃ flags, VerifyToken toyHS256 testKey 1700000000 1700000000
      (.malformed "invalid-token-string") =
      some (.wrapped "could not parse token" (.jwtValidation flags))) ∧
    (∀ s : Sentinel, errorsIs (VerifyToken toyHS256 testKey 1700000000 1700000000
      (.malformed "invalid-token-string")) s = false) :=
  verifyToken_malformed_or_bad_signature toyHS256 testKey 1700000000 1700000000
    (.malformed "invalid-token-string") (Or.inl ⟨_, rfl⟩)

/-- Counterexample to C6 as stated: on `"invalid-token-string"` the error of
`VerifyToken` is not `ErrTokenInvalid`. -/
theorem verifyToken_invalid_string_not_sentinel :
    errorsIs (VerifyToken toyHS256 testKey 1700000000 1700000000
      (.malformed "invalid-token-string")) .TokenInvalid = false := by
  decide

/-- C7 (evaluation at the failing input): for the credentials and key of
`TestDefaultService_GenerateToken` the claims signed by `GenerateToken` have
issuer `"foo-issuer"` and audience `"foo-audience"`, not `"qredo"`. -/
theorem generateToken_issuer_audience_are_foo :
    issuerAndAudience (GenerateToken toyHS256 fooKey 1700000000 1700000000
      ⟨"foo-username", "bar-password"⟩) = some ("foo-issuer", "foo-audience") ∧
    issuerAndAudience (GenerateToken toyHS256 fooKey 1700000000 1700000000
      ⟨"foo-username", "bar-password"⟩) ≠ some ("qredo", "qredo") := by
  decide

/-- C8: for every credentials with non-empty username and password issued at
Unix time `now`, `GenerateToken` returns a token with type `"Bearer"` and
`ExpiresIn = 3600`, whose access token is the signature, under the key of the
service, of claims with subject the username and `expiresAt = now + 3600`. -/
theorem generateToken_token_fields (lib : HS256) (key : List UInt8) (now nowId : Int)
    (creds : Credentials) (hu : creds.Username ≠ "") (hp : creds.Password ≠ "") :
    ∃ (t : Token) (c : Claims),
      GenerateToken lib key now nowId creds = .ok t ∧
      t.TokenType = "Bearer" ∧ t.ExpiresIn = 3600 ∧
      t.AccessToken = signedWith lib key c ∧
      c.Subject = creds.Username ∧ c.ExpiresAt = now + 3600 :=
  ⟨_, issuedClaims now nowId creds, generateToken_ok lib key now nowId creds hu hp,
    rfl, rfl, rfl, rfl, rfl⟩

/-- Witness of C8: the credentials of `TestDefaultService_GenerateToken`. -/
theorem generateToken_token_fields_witness :
    ∃ (t : Token) (c : Claims),
      GenerateToken toyHS256 fooKey 1700000000 1700000001
        ⟨"foo-username", "bar-password"⟩ = .ok t ∧
      t.TokenType = "Bearer" ∧ t.ExpiresIn = 3600 ∧
      t.AccessToken = signedWith toyHS256 fooKey c ∧
      c.Subject = "foo-username" ∧ c.ExpiresAt = 1700000000 + 3600 :=
  generateToken_token_fields toyHS256 fooKey 1700000000 1700000001
    ⟨"foo-username", "bar-password"⟩ (by decide) (by decide)


/-! ## `sumNumbers` -/

theorem sumStringLoop_isSome (pf : String → Option Float64) (xs : List String) (acc : Float64) :
    (sumStringLoop pf acc xs).2.isSome =
      xs.any (fun s => decide (s ≠ "") && (pf s).isNone) := by
  induction xs generalizing acc with
  | nil => rfl
  | cons v rest ih =>
    by_cases hv : v = ""
    · simp [sumStringLoop, hv, ih]
    · cases hp : pf v with
      | none => simp [sumStringLoop, hv, hp]
      | some num => simp [sumStringLoop, hv, hp, ih]

mutual
/-- `sumNumbers` returns an error exactly on the values with a bad leaf. -/
theorem sumNumbers_isSome (pf : String → Option Float64) :
    ∀ v : GoValue, (sumNumbers pf v).2.isSome = v.hasBadLeaf pf
  | .nil => rfl
  | .float64 _ => rfl
  | .int _ => rfl
  | .string val => by
    by_cases hv : val = ""
    · simp [sumNumbers, GoValue.hasBadLeaf, hv]
    · cases hp : pf val <;> simp [sumNumbers, GoValue.hasBadLeaf, hv, hp]
  | .sliceFloat64 _ => rfl
  | .sliceInt _ => rfl
  | .sliceString val => by
    simp only [sumNumbers, GoValue.hasBadLeaf]
    exact sumStringLoop_isSome pf val 0
  | .sliceAny val => by
    simp only [sumNumbers, GoValue.hasBadLeaf]
    exact sumAnyLoop_isSome pf val 0
  | .mapStringAny val => by
    simp only [sumNumbers, GoValue.hasBadLeaf]
    exact sumMapLoop_isSome pf val 0
  | .bool _ => rfl
  | .other _ => rfl
theorem sumAnyLoop_isSome (pf : String → Option Float64) :
    ∀ (xs : List GoValue) (acc : Float64),
      (sumAnyLoop pf acc xs).2.isSome = anyHasBadLeaf pf xs
  | [], _ => rfl
  | v :: rest, acc => by
    have ih := sumNumbers_isSome pf v
    rcases h : sumNumbers pf v with ⟨r, _ | e⟩
    · rw [h] at ih
      simp only [sumAnyLoop, anyHasBadLeaf, h, ← ih]
      simpa using sumAnyLoop_isSome pf rest (acc + r)
    · rw [h] at ih
      simp [sumAnyLoop, anyHasBadLeaf, h, ← ih]
theorem sumMapLoop_isSome (pf : String → Option Float64) :
    ∀ (xs : List (String × GoValue)) (acc : Float64),
      (sumMapLoop pf acc xs).2.isSome = anyEntryHasBadLeaf pf xs
  | [], _ => rfl
  | kv :: rest, acc => by
    have ih := sumNumbers_isSome pf kv.2
    rcases h : sumNumbers pf kv.2 with ⟨r, _ | e⟩
    · rw [h] at ih
      simp only [sumMapLoop, anyEntryHasBadLeaf, h, ← ih]
      simpa using sumMapLoop_isSome pf rest (acc + r)
    · rw [h] at ih
      simp [sumMapLoop, anyEntryHasBadLeaf, h, ← ih]
end


theorem sumStringLoop_fail (pf : String → Option Float64) (xs : List String) (acc : Float64)
    (h : (sumStringLoop pf acc xs).2 ≠ none) :
    sumStringLoop pf acc xs =
      (0, some (.wrapped "could not parse string to float" ErrUnsupportedValueType)) := by
  induction xs generalizing acc with
  | nil => simp [sumStringLoop] at h
  | cons v rest ih =>
    by_cases hv : v = ""
    · simp only [sumStringLoop, hv, if_true] at h ⊢
      exact ih acc h
    · cases hp : pf v with
      | none => simp [sumStringLoop, hv, hp]
      | some num =>
        simp only [sumStringLoop, hv, hp, if_false] at h ⊢
        exact ih _ h

theorem sumAnyLoop_fail (pf : String → Option Float64) (xs : List GoValue) (acc : Float64)
    (h : (sumAnyLoop pf acc xs).2 ≠ none) :
    sumAnyLoop pf acc xs = (0, some (.wrapped "could not sum numbers" ErrUnsupportedValueType)) := by
  induction xs generalizing acc with
  | nil => simp [sumAnyLoop] at h
  | cons v rest ih =>
    rcases hv : sumNumbers pf v with ⟨r, _ | e⟩
    · simp only [sumAnyLoop, hv] at h ⊢
      exact ih _ h
    · simp [sumAnyLoop, hv]

theorem sumMapLoop_fail (pf : String → Option Float64) (xs : List (String × GoValue))
    (acc : Float64) (h : (sumMapLoop pf acc xs).2 ≠ none) :
    sumMapLoop pf acc xs = (0, some (.wrapped "could not sum numbers" ErrUnsupportedValueType)) := by
  induction xs generalizing acc with
  | nil => simp [sumMapLoop] at h
  | cons kv rest ih =>
    rcases hv : sumNumbers pf kv.2 with ⟨r, _ | e⟩
    · simp only [sumMapLoop, hv] at h ⊢
      exact ih _ h
    · simp [sumMapLoop, hv]

/-- A failing `sumNumbers` returns the total `0` and an error that is
`ErrUnsupportedValueType`. -/
theorem sumNumbers_fail (pf : String → Option Float64) (v : GoValue)
    (h : (sumNumbers pf v).2 ≠ none) :
    (sumNumbers pf v).1 = 0 ∧ errorsIs (sumNumbers pf v).2 .UnsupportedValueType = true := by
  cases v with
  | nil => simp [sumNumbers] at h
  | float64 val => simp [sumNumbers] at h
  | int val => simp [sumNumbers] at h
  | string val =>
    by_cases hv : val = ""
    · simp [sumNumbers, hv] at h
    · cases hp : pf val with
      | none =>
        have hs : sumNumbers pf (.string val) =
            (0, some (.wrapped "could not parse string to float" ErrUnsupportedValueType)) := by
          simp [sumNumbers, hv, hp]
        rw [hs]
        exact ⟨rfl, rfl⟩
      | some num => simp [sumNumbers, hv, hp] at h
  | sliceFloat64 val => simp [sumNumbers] at h
  | sliceInt val => simp [sumNumbers] at h
  | sliceString val =>
    simp only [sumNumbers] at h ⊢
    rw [sumStringLoop_fail pf val 0 h]
    exact ⟨rfl, rfl⟩
  | sliceAny val =>
    simp only [sumNumbers] at h ⊢
    rw [sumAnyLoop_fail pf val 0 h]
    exact ⟨rfl, rfl⟩
  | mapStringAny val =>
    simp only [sumNumbers] at h ⊢
    rw [sumMapLoop_fail pf val 0 h]
    exact ⟨rfl, rfl⟩
  | bool val => exact ⟨rfl, rfl⟩
  | other t => exact ⟨rfl, rfl⟩

/-- C9: for every input, `sumNumbers` fails if and only if the input
contains, at any depth reached through `[]any` elements and
`map[string]any` values, a leaf of an unsupported shape or a non-empty
string that does not parse as a float (also as an element of a `[]string`);
when it fails it returns the total `0` and an error that is
`ErrUnsupportedValueType`, even if earlier elements were valid, as for
`[]any{1.0, true}`. -/
theorem sumNumbers_fails_iff_bad_leaf (pf : String → Option Float64) (v : GoValue) :
    ((sumNumbers pf v).2 ≠ none ↔ v.hasBadLeaf pf = true) ∧
    ((sumNumbers pf v).2 ≠ none →
      (sumNumbers pf v).1 = 0 ∧
        errorsIs (sumNumbers pf v).2 .UnsupportedValueType = true) ∧
    (sumNumbers pf (.sliceAny [.float64 (.ofInt 1), .bool true])).1 = 0 ∧
    errorsIs (sumNumbers pf (.sliceAny [.float64 (.ofInt 1), .bool true])).2
      .UnsupportedValueType = true := by
  refine ⟨?_, sumNumbers_fail pf v, rfl, rfl⟩
  rw [← sumNumbers_isSome pf v]
  cases (sumNumbers pf v).2 <;> simp

/-- Witness of C9: the input `[]any{1.0, "a"}` of the tests fails with the
total `0` and `ErrUnsupportedValueType`. -/
theorem sumNumbers_fails_iff_bad_leaf_witness :
    (sumNumbers toyParseFloat (.sliceAny [.float64 (.ofInt 1), .string "a"])).1 = 0 ∧
      errorsIs (sumNumbers toyParseFloat (.sliceAny [.float64 (.ofInt 1), .string "a"])).2
        .UnsupportedValueType = true :=
  (sumNumbers_fails_iff_bad_leaf toyParseFloat
    (.sliceAny [.float64 (.ofInt 1), .string "a"])).2.1 (by decide)

theorem sumAnyLoop_eq_foldl (pf : String → Option Float64) (xs : List GoValue) (acc : Float64)
    (h : ∀ v ∈ xs, (sumNumbers pf v).2 = none) :
    sumAnyLoop pf acc xs = (xs.foldl (fun sum v => sum + (sumNumbers pf v).1) acc, none) := by
  induction xs generalizing acc with
  | nil => rfl
  | cons v rest ih =>
    have hv : (sumNumbers pf v).2 = none := h v (List.mem_cons_self _ _)
    have hrest : ∀ w ∈ rest, (sumNumbers pf w).2 = none :=
      fun w hw => h w (List.mem_cons_of_mem _ hw)
    rcases hs : sumNumbers pf v with ⟨r, e⟩
    rw [hs] at hv
    simp only at hv
    subst hv
    simp only [sumAnyLoop, hs, List.foldl_cons]
    exact ih _ hrest

/-- Adding a value to the `float64` zero gives the value back, except that
the negative zero becomes the positive zero. -/
theorem Float64.zero_add_eq (t : Float64) (h : t ≠ .zero true) : (0 : Float64) + t = t := by
  cases t with
  | nan => rfl
  | inf neg => rfl
  | zero neg =>
    cases neg with
    | false => rfl
    | true => exact absurd rfl h
  | finite neg m e => rfl

theorem sumNumbers_singleton (pf : String → Option Float64) (v : GoValue) (t : Float64)
    (h : sumNumbers pf v = (t, none)) :
    sumNumbers pf (.sliceAny [v]) = (0 + t, none) := by
  simp [sumNumbers, sumAnyLoop, h]

/-- C10 (amended): for every `[]any` sequence whose elements all sum
successfully, `sumNumbers` returns the sum, taken left to right from `0`, of
`sumNumbers` applied to each element; in particular wrapping a value `v`
whose total is not the negative zero in any number of nested singleton
sequences gives the same total as `sumNumbers(v)` (a negative zero becomes
the positive zero once wrapped), as in `sum([[[1.0, 2.0]]]) = 3.0`. -/
theorem sumNumbers_sliceAny_left_fold (pf : String → Option Float64) :
    (∀ xs : List GoValue, (∀ v ∈ xs, (sumNumbers pf v).2 = none) →
      sumNumbers pf (.sliceAny xs) =
        (xs.foldl (fun sum v => sum + (sumNumbers pf v).1) 0, none)) ∧
    (∀ (v : GoValue) (t : Float64) (n : Nat), sumNumbers pf v = (t, none) →
      t ≠ .zero true → sumNumbers pf (wrapSingleton n v) = (t, none)) ∧
    (∀ (v : GoValue) (n : Nat), sumNumbers pf v = (.zero true, none) →
      sumNumbers pf (wrapSingleton (n + 1) v) = (.zero false, none)) ∧
    sumNumbers pf (.sliceAny [.sliceAny [.sliceAny
      [.float64 (.ofInt 1), .float64 (.ofInt 2)]]]) = (.ofInt 3, none) := by
  have hwrap : ∀ (v : GoValue) (t : Float64) (n : Nat), sumNumbers pf v = (t, none) →
      t ≠ .zero true → sumNumbers pf (wrapSingleton n v) = (t, none) := by
    intro v t n h ht
    induction n with
    | zero => exact h
    | succ n ih =>
      simp only [wrapSingleton]
      rw [sumNumbers_singleton pf _ t ih, Float64.zero_add_eq t ht]
  refine ⟨?_, hwrap, ?_, ?_⟩
  · intro xs h
    simp only [sumNumbers]
    exact sumAnyLoop_eq_foldl pf xs 0 h
  · intro v n h
    have h1 : sumNumbers pf (wrapSingleton 1 v) = (.zero false, none) := by
      simp only [wrapSingleton]
      rw [sumNumbers_singleton pf _ _ h]
      rfl
    have h2 := hwrap (wrapSingleton 1 v) (.zero false) n h1 (by decide)
    have h3 : ∀ k, wrapSingleton k (wrapSingleton 1 v) = wrapSingleton (k + 1) v := by
      intro k
      induction k with
      | zero => rfl
      | succ k ih =>
        show GoValue.sliceAny [wrapSingleton k (wrapSingleton 1 v)] =
          GoValue.sliceAny [wrapSingleton (k + 1) v]
        rw [ih]
    rw [h3] at h2
    exact h2
  · simp only [sumNumbers, sumAnyLoop]
    decide

/-- Witness of C10 (amended): the sequence `[]any{1.0, "3"}` of the tests,
and the value `"3"` wrapped three times. -/
theorem sumNumbers_sliceAny_left_fold_witness :
    sumNumbers toyParseFloat (.sliceAny [.float64 (.ofInt 1), .string "3"]) =
        ([GoValue.float64 (.ofInt 1), .string "3"].foldl
          (fun sum v => sum + (sumNumbers toyParseFloat v).1) 0, none) ∧
      sumNumbers toyParseFloat (wrapSingleton 3 (.string "3")) = (.ofInt 3, none) :=
  ⟨(sumNumbers_sliceAny_left_fold toyParseFloat).1 [.float64 (.ofInt 1), .string "3"]
      (by decide),
   (sumNumbers_sliceAny_left_fold toyParseFloat).2.1 (.string "3") (.ofInt 3) 3
      (by decide) (by decide)⟩

/-- Counterexample to C10 as stated: the `float64` negative zero sums to the
negative zero, and wrapped in one singleton sequence to the positive zero. -/
theorem sumNumbers_wrapped_negative_zero :
    sumNumbers toyParseFloat (.float64 (.zero true)) = (.zero true, none) ∧
    sumNumbers toyParseFloat (wrapSingleton 1 (.float64 (.zero true))) = (.zero false, none) ∧
    (sumNumbers toyParseFloat (wrapSingleton 1 (.float64 (.zero true)))).1 ≠
      (sumNumbers toyParseFloat (.float64 (.zero true))).1 := by
  decide

/-! ## Transport layer and expiry boundary -/

/-- C14: for every error `e` (given by what `errors.Is` answers for each
sentinel), `toTransportError(e)` is `ErrUnauthorized` (401) whenever `e`
wraps `ErrTokenInvalid`, `ErrTokenInvalidExpiration`, `ErrTokenInvalidIssuer`
or `ErrTokenInvalidAudience` and neither credential error; it is
`ErrInvalidUsername` (400) when `e` wraps `ErrUsernameInvalid`,
`ErrInvalidPassword` (400) when `e` wraps `ErrPasswordInvalid` but not
`ErrUsernameInvalid`, `ErrUnsupportedValueType` (422) when `e` wraps only
`ErrUnsupportedValueType`, and `ErrInternal` (500) when `e` wraps none of
the service errors. -/
theorem toTransportError_cases (errIs : Sentinel → Bool) :
    ((errIs .TokenInvalid = true ∨ errIs .TokenInvalidExpiration = true ∨
        errIs .TokenInvalidIssuer = true ∨ errIs .TokenInvalidAudience = true) →
      errIs .UsernameInvalid = false → errIs .PasswordInvalid = false →
      App.toTransportError errIs = App.ErrUnauthorized) ∧
    (errIs .UsernameInvalid = true → App.toTransportError errIs = App.ErrInvalidUsername) ∧
    (errIs .PasswordInvalid = true → errIs .UsernameInvalid = false →
      App.toTransportError errIs = App.ErrInvalidPassword) ∧
    (errIs .UnsupportedValueType = true →
      (∀ s, s ≠ Sentinel.UnsupportedValueType → errIs s = false) →
      App.toTransportError errIs = App.ErrUnsupportedValueType) ∧
    ((∀ s, errIs s = false) → App.toTransportError errIs = App.ErrInternal) ∧
    App.ErrUnauthorized.StatusCode = 401 ∧ App.ErrInvalidUsername.StatusCode = 400 ∧
    App.ErrInvalidPassword.StatusCode = 400 ∧ App.ErrUnsupportedValueType.StatusCode = 422 ∧
    App.ErrInternal.StatusCode = 500 := by
  refine ⟨?_, ?_, ?_, ?_, ?_, rfl, rfl, rfl, rfl, rfl⟩
  · intro h hu hp
    unfold App.toTransportError
    rcases h with h | h | h | h <;>
      cases h1 : errIs .TokenInvalid <;> cases h2 : errIs .TokenInvalidExpiration <;>
      cases h3 : errIs .TokenInvalidIssuer <;> simp_all
  · intro hu
    simp [App.toTransportError, hu]
  · intro hp hu
    simp [App.toTransportError, hp, hu]
  · intro h hs
    simp [App.toTransportError, h, hs]
  · intro hs
    simp [App.toTransportError, hs]

/-- Witness of C14: the errors that `VerifyToken`, `GenerateToken` and
`sumNumbers` return in the tests, and a `nil` error. -/
theorem toTransportError_cases_witness :
    App.toTransportError (errorsIs (some ErrTokenInvalidIssuer)) = App.ErrUnauthorized ∧
    App.toTransportError
      (errorsIs (some (.wrapped "could not invalid credentials" ErrUsernameInvalid))) =
        App.ErrInvalidUsername ∧
    App.toTransportError
      (errorsIs (some (.wrapped "could not invalid credentials" ErrPasswordInvalid))) =
        App.ErrInvalidPassword ∧
    App.toTransportError
      (errorsIs (some (.wrapped "could not sum numbers" ErrUnsupportedValueType))) =
        App.ErrUnsupportedValueType ∧
    App.toTransportError (errorsIs none) = App.ErrInternal :=
  ⟨(toTransportError_cases _).1 (by decide) (by decide) (by decide),
   (toTransportError_cases _).2.1 (by decide),
   (toTransportError_cases _).2.2.1 (by decide) (by decide),
   (toTransportError_cases _).2.2.2.1 (by decide)
     (fun s hs => by cases s <;> first | rfl | exact absurd rfl hs),
   (toTransportError_cases _).2.2.2.2.1 (fun _ => rfl)⟩

/-- C16 (amended): `VerifyToken` requires `expiresAt` to be at or after the
current time: for every validly signed token with the issuer and audience of
the service, with `issuedAt` and `notBefore` absent or not after the current
time, whose `expiresAt` equals the current Unix time `now`, `VerifyToken`
returns no error when `now ≠ 0`; when `now = 0` the expiry is the absent
claim and `VerifyToken` fails with `ErrTokenInvalidExpiration`. -/
theorem verifyToken_expiry_equal_now (lib : HS256) (key : List UInt8) (now : Int)
    (sstr : String) (c : StandardClaims)
    (hexp : c.ExpiresAt = now)
    (hiss : c.Issuer = jwtClaimIssuer) (haud : c.Audience = jwtClaimAudience)
    (hiat : c.IssuedAt = 0 ∨ c.IssuedAt ≤ now)
    (hnbf : c.NotBefore = 0 ∨ c.NotBefore ≤ now) :
    (now ≠ 0 → VerifyToken lib key now now (.compact sstr c (lib.Sign sstr key)) = none) ∧
    (now = 0 → VerifyToken lib key now now (.compact sstr c (lib.Sign sstr key)) =
      some ErrTokenInvalidExpiration) := by
  have hv : c.Valid now = none := valid_eq_none (Or.inr (le_of_eq hexp.symm)) hiat hnbf
  have h2 : c.VerifyIssuer jwtClaimIssuer true = true := by
    simp [StandardClaims.VerifyIssuer, verifyIss, hiss, jwtClaimIssuer]
  have h3 : c.VerifyAudience jwtClaimAudience true = true := by
    rw [verifyAudience_single]
    simp [haud, jwtClaimAudience]
  rw [verifyToken_of_parse_ok lib key now now sstr c hv]
  constructor
  · intro h0
    have h1 : c.VerifyExpiresAt now true = true := by
      simp [StandardClaims.VerifyExpiresAt, verifyExp, hexp, h0]
    simp [h1, h2, h3]
  · intro h0
    have h1 : c.VerifyExpiresAt now true = false := by
      simp [StandardClaims.VerifyExpiresAt, verifyExp, hexp, h0]
    simp [h1]

/-- Witness of C16 (amended): a token of the service expiring at Unix time
1700000000, verified at that second. -/
theorem verifyToken_expiry_equal_now_witness :
    VerifyToken toyHS256 testKey 1700000000 1700000000
      (.compact "s" (testClaims "foo-username" jwtClaimIssuer jwtClaimAudience 1700000000)
        (toyHS256.Sign "s" testKey)) = none :=
  (verifyToken_expiry_equal_now toyHS256 testKey 1700000000 "s"
    (testClaims "foo-username" jwtClaimIssuer jwtClaimAudience 1700000000)
    rfl rfl rfl (Or.inl rfl) (Or.inl rfl)).1 (by decide)

/-- Counterexample to C16 as stated: a token signed with the key of the
service, with its issuer and audience, whose `expiresAt` equals the current
Unix time, is accepted: the error of `VerifyToken` is `nil`, not
`ErrTokenInvalidExpiration`. -/
theorem verifyToken_accepts_expiry_equal_now :
    VerifyToken toyHS256 testKey 1700000000 1700000000
        (signedWith toyHS256 testKey
          (testClaims "foo-username" jwtClaimIssuer jwtClaimAudience 1700000000)) = none ∧
      errorsIs (VerifyToken toyHS256 testKey 1700000000 1700000000
        (signedWith toyHS256 testKey
          (testClaims "foo-username" jwtClaimIssuer jwtClaimAudience 1700000000)))
        .TokenInvalidExpiration = false := by
  decide

theorem bearerPrefix_data_length : App.bearerPrefix.data.length = 7 := by decide

theorem extractTokenFromHeader_bearer (t : String) :
    App.extractTokenFromHeader (App.bearerPrefix ++ t) = t := by
  have hp : App.bearerPrefix.data.isPrefixOf (App.bearerPrefix ++ t).data = true := by
    rw [List.isPrefixOf_iff_prefix, String.data_append]
    exact List.prefix_append _ _
  have hl : App.bearerPrefix.length = App.bearerPrefix.data.length := rfl
  unfold App.extractTokenFromHeader
  rw [if_pos hp, hl, String.data_append, List.drop_left]

/-- C17: for every `Authorization` header value `h`,
`extractTokenFromHeader(h)` is `h` with its first 7 characters removed when
`h` starts with `"Bearer "` and the empty string otherwise; so
`extractTokenFromHeader("Bearer " ++ t) = t` for every `t`, the result is
empty exactly when `h` lacks the prefix or is exactly `"Bearer "`, and for
every `h` yielding the empty string `sumHandler` answers `ErrUnauthorized`
(401) without calling `VerifyToken` or `Sum`. -/
theorem extractTokenFromHeader_and_sumHandler (h : String) :
    (h.data.take 7 = "Bearer ".data → App.extractTokenFromHeader h = ⟨h.data.drop 7⟩) ∧
    (h.data.take 7 ≠ "Bearer ".data → App.extractTokenFromHeader h = "") ∧
    (∀ t : String, App.extractTokenFromHeader ("Bearer " ++ t) = t) ∧
    (App.extractTokenFromHeader h = "" ↔ (h.data.take 7 ≠ "Bearer ".data ∨ h = "Bearer ")) ∧
    (∀ (svc : App.ServiceMethods) (body : Option GoValue),
      App.extractTokenFromHeader h = "" →
        App.sumHandler svc h body = (.jsonError App.ErrUnauthorized, []) ∧
        App.ErrUnauthorized.StatusCode = 401) := by
  have hpre : App.bearerPrefix.data.isPrefixOf h.data = true ↔
      h.data.take 7 = "Bearer ".data := by
    rw [List.isPrefixOf_iff_prefix, List.prefix_iff_eq_take]
    constructor
    · intro hp
      exact hp.symm
    · intro hp
      exact hp.symm
  have h1 : h.data.take 7 = "Bearer ".data → App.extractTokenFromHeader h = ⟨h.data.drop 7⟩ := by
    intro hp
    unfold App.extractTokenFromHeader
    rw [if_pos (hpre.2 hp)]
    rfl
  have h2 : h.data.take 7 ≠ "Bearer ".data → App.extractTokenFromHeader h = "" := by
    intro hp
    unfold App.extractTokenFromHeader
    rw [if_neg (fun hc => hp (hpre.1 hc))]
  refine ⟨h1, h2, extractTokenFromHeader_bearer, ?_, ?_⟩
  · constructor
    · intro he
      by_cases hp : h.data.take 7 = "Bearer ".data
      · right
        rw [h1 hp] at he
        have hd : h.data.drop 7 = [] := congrArg String.data he
        have hh : h.data = "Bearer ".data := by
          rw [← List.take_append_drop 7 h.data, hd, hp, List.append_nil]
        exact String.ext hh
      · exact Or.inl hp
    · rintro (hp | rfl)
      · exact h2 hp
      · decide
  · intro svc body he
    exact ⟨by simp [App.sumHandler, he], rfl⟩

/-- Witness of C17: the header `"Bearer "` of `TestSumHandler_invalidToken`
is answered with `ErrUnauthorized` and no call reaches the service. -/
theorem extractTokenFromHeader_and_sumHandler_witness :
    App.sumHandler App.mockService "Bearer "
        (some (.mapStringAny [("a", .float64 (.ofInt 2)), ("b", .float64 (.ofInt 3))])) =
      (.jsonError App.ErrUnauthorized, []) ∧ App.ErrUnauthorized.StatusCode = 401 :=
  (extractTokenFromHeader_and_sumHandler "Bearer ").2.2.2.2 App.mockService
    (some (.mapStringAny [("a", .float64 (.ofInt 2)), ("b", .float64 (.ofInt 3))]))
    (by decide)

/-! ## `float64` addition -/

theorem Float64.add_def (x y : Float64) : x + y = Float64.add x y := rfl

theorem Float64.zero_def : (0 : Float64) = .zero false := rfl

/-- Addition of `float64` values is commutative. -/
theorem Float64.add_comm' (x y : Float64) : x + y = y + x := by
  simp only [Float64.add_def]
  cases x with
  | nan => cases y <;> rfl
  | inf a =>
    cases y with
    | inf b =>
      simp only [Float64.add]
      by_cases h : a = b
      · subst h
        simp
      · have h' : ¬ b = a := fun hc => h hc.symm
        simp [h, h']
    | nan => rfl
    | zero b => rfl
    | finite s m e => rfl
  | zero a =>
    cases y with
    | zero b => simp [Float64.add, Bool.and_comm]
    | nan => rfl
    | inf b => rfl
    | finite s m e => rfl
  | finite s1 m1 e1 =>
    cases y with
    | finite s2 m2 e2 =>
      simp only [Float64.add, min_comm e1 e2]
      rw [Int.add_comm]
    | nan => rfl
    | inf b => rfl
    | zero b => rfl

/-- Adding the positive zero leaves every value but the negative zero. -/
theorem Float64.add_zero_eq (t : Float64) (h : t ≠ .zero true) : t + (0 : Float64) = t := by
  rw [Float64.add_comm']
  exact Float64.zero_add_eq t h

theorem Float64.add_neg_zero (t : Float64) : t + Float64.zero true = t := by
  cases t with
  | nan => rfl
  | inf a => rfl
  | zero a => simp [Float64.add_def, Float64.add]
  | finite s m e => rfl

/-- The total of two values added in turn to the zero does not depend on
their order. -/
theorem Float64.zero_add_add_comm (a b : Float64) : (0 + a) + b = (0 + b) + a := by
  by_cases ha : a = .zero true
  · subst ha
    rw [Float64.add_neg_zero (0 + b)]
    rfl
  · by_cases hb : b = .zero true
    · subst hb
      rw [Float64.add_neg_zero (0 + a)]
      rfl
    · rw [Float64.zero_add_eq a ha, Float64.zero_add_eq b hb, Float64.add_comm']

/-! ## `sumNumbers` on maps, numbers and strings -/

theorem sumMapLoop_eq_foldl (pf : String → Option Float64) (es : List (String × GoValue))
    (acc : Float64) (h : ∀ kv ∈ es, (sumNumbers pf kv.2).2 = none) :
    sumMapLoop pf acc es = (es.foldl (fun sum kv => sum + (sumNumbers pf kv.2).1) acc, none) := by
  induction es generalizing acc with
  | nil => rfl
  | cons kv rest ih =>
    have hv : (sumNumbers pf kv.2).2 = none := h kv (List.mem_cons_self _ _)
    have hrest : ∀ w ∈ rest, (sumNumbers pf w.2).2 = none :=
      fun w hw => h w (List.mem_cons_of_mem _ hw)
    rcases hs : sumNumbers pf kv.2 with ⟨r, e⟩
    rw [hs] at hv
    simp only at hv
    subst hv
    simp only [sumMapLoop, hs, List.foldl_cons]
    exact ih _ hrest

/-- The loop over the entries of a map looks at the values only. -/
theorem sumMapLoop_keys (pf : String → Option Float64) (es es' : List (String × GoValue))
    (acc : Float64) (h : es.map Prod.snd = es'.map Prod.snd) :
    sumMapLoop pf acc es = sumMapLoop pf acc es' := by
  induction es generalizing es' acc with
  | nil =>
    cases es' with
    | nil => rfl
    | cons kv' rest' => simp at h
  | cons kv rest ih =>
    cases es' with
    | nil => simp at h
    | cons kv' rest' =>
      simp only [List.map_cons, List.cons.injEq] at h
      obtain ⟨hv, hrest⟩ := h
      simp only [sumMapLoop, hv]
      rcases sumNumbers pf kv'.2 with ⟨r, _ | e⟩
      · exact ih rest' _ hrest
      · rfl

/-- Two orders of at most two entries are the same order or the swap. -/
theorem perm_short_cases {α : Type} (l l' : List α) (hp : l.Perm l') (hl : l.length ≤ 2) :
    l' = l ∨ ∃ a b, l = [a, b] ∧ l' = [b, a] := by
  match l, hl with
  | [], _ => exact Or.inl (List.Perm.eq_nil hp.symm)
  | [a], _ => exact Or.inl (List.perm_singleton.1 hp.symm)
  | [a, b], _ =>
    have hlen : l'.length = 2 := hp.length_eq.symm
    obtain ⟨c, d, rfl⟩ := List.length_eq_two.1 hlen
    have hc : c ∈ [a, b] := hp.symm.subset (List.mem_cons_self _ _)
    simp only [List.mem_cons, List.mem_singleton, List.not_mem_nil, or_false] at hc
    rcases hc with rfl | rfl
    · have hd : [b].Perm [d] := (List.perm_cons c).1 hp
      have : d = b := by
        have := List.perm_singleton.1 hd.symm
        simpa using this
      subst this
      exact Or.inl rfl
    · have h1 : [c, a].Perm [c, d] := (List.Perm.swap a c []).trans hp
      have hd : [a].Perm [d] := (List.perm_cons c).1 h1
      have : d = a := by
        have := List.perm_singleton.1 hd.symm
        simpa using this
      subst this
      exact Or.inr ⟨d, c, rfl, rfl⟩

/-- C11 (amended): for every `map[string]any` whose values all sum
successfully, `sumNumbers` returns the sum, taken from `0` in the order in
which the entries are visited, of `sumNumbers` over its values; that result
does not depend on the keys, and with at most two entries it does not depend
on the order in which the entries are visited
(`sum({"a": 6, "b": 4}) = 10.0` in both orders). -/
theorem sumNumbers_map_fold_keys_order (pf : String → Option Float64) :
    (∀ es : List (String × GoValue), (∀ kv ∈ es, (sumNumbers pf kv.2).2 = none) →
      sumNumbers pf (.mapStringAny es) =
        (es.foldl (fun sum kv => sum + (sumNumbers pf kv.2).1) 0, none)) ∧
    (∀ es es' : List (String × GoValue), es.map Prod.snd = es'.map Prod.snd →
      sumNumbers pf (.mapStringAny es) = sumNumbers pf (.mapStringAny es')) ∧
    (∀ es es' : List (String × GoValue), es.Perm es' → es.length ≤ 2 →
      (∀ kv ∈ es, (sumNumbers pf kv.2).2 = none) →
      sumNumbers pf (.mapStringAny es) = sumNumbers pf (.mapStringAny es')) ∧
    sumNumbers pf (.mapStringAny [("a", .int 6), ("b", .int 4)]) = (.ofInt 10, none) ∧
    sumNumbers pf (.mapStringAny [("b", .int 4), ("a", .int 6)]) = (.ofInt 10, none) := by
  have hfold : ∀ es : List (String × GoValue), (∀ kv ∈ es, (sumNumbers pf kv.2).2 = none) →
      sumNumbers pf (.mapStringAny es) =
        (es.foldl (fun sum kv => sum + (sumNumbers pf kv.2).1) 0, none) := by
    intro es h
    simp only [sumNumbers]
    exact sumMapLoop_eq_foldl pf es 0 h
  refine ⟨hfold, ?_, ?_, ?_, ?_⟩
  · intro es es' h
    simp only [sumNumbers]
    exact sumMapLoop_keys pf es es' 0 h
  · intro es es' hp hl hok
    rcases perm_short_cases es es' hp hl with rfl | ⟨a, b, rfl, rfl⟩
    · rfl
    · have hok' : ∀ kv ∈ [b, a], (sumNumbers pf kv.2).2 = none :=
        fun kv hkv => hok kv (hp.symm.subset hkv)
      rw [hfold _ hok, hfold _ hok']
      simp only [List.foldl_cons, List.foldl_nil]
      rw [Float64.zero_add_add_comm]
  · simp only [sumNumbers, sumMapLoop]
    decide
  · simp only [sumNumbers, sumMapLoop]
    decide

/-- Witness of C11 (amended): the map `{"a": 6, "b": 4}` of the tests,
visited as `a, b` and as `b, a`. -/
theorem sumNumbers_map_fold_keys_order_witness :
    sumNumbers toyParseFloat (.mapStringAny [("a", .int 6), ("b", .int 4)]) =
      sumNumbers toyParseFloat (.mapStringAny [("b", .int 4), ("a", .int 6)]) :=
  (sumNumbers_map_fold_keys_order toyParseFloat).2.2.1
    [("a", .int 6), ("b", .int 4)] [("b", .int 4), ("a", .int 6)]
    (List.Perm.swap _ _ []) (by decide) (by decide)

set_option maxRecDepth 8000 in
/-- Counterexample to C11 as stated: the map `{"a": 9007199254740992,
"b": 1, "c": 1}` sums to `9007199254740992` when its entries are visited in
the order `a, b, c` and to `9007199254740994` in the order `c, b, a`. -/
theorem sumNumbers_map_depends_on_order :
    sumNumbers toyParseFloat (.mapStringAny
        [("a", .float64 (.ofInt 9007199254740992)), ("b", .float64 (.ofInt 1)),
         ("c", .float64 (.ofInt 1))]) = (.ofInt 9007199254740992, none) ∧
    sumNumbers toyParseFloat (.mapStringAny
        [("c", .float64 (.ofInt 1)), ("b", .float64 (.ofInt 1)),
         ("a", .float64 (.ofInt 9007199254740992))]) = (.ofInt 9007199254740994, none) ∧
    Float64.ofInt 9007199254740992 ≠ Float64.ofInt 9007199254740994 := by
  decide

set_option maxRecDepth 8000 in
/-- C12: on purely numeric shapes `sumNumbers` never fails and returns the
total in `float64` arithmetic: `nil` gives `0`, a `float64` gives its own
value, an `int` gives its value converted to `float64`, and every
`[]float64` or `[]int` gives the sum of its elements, added from `0` in
order (`0` when the sequence is empty), as in `sum([1.0, 3.2]) = 4.2` and
`sum([1, 2, 3, 4]) = 10.0`. -/
theorem sumNumbers_numeric (pf : String → Option Float64) :
    sumNumbers pf .nil = (0, none) ∧
    (∀ x : Float64, sumNumbers pf (.float64 x) = (x, none)) ∧
    (∀ n : Int, sumNumbers pf (.int n) = (Float64.ofInt n, none)) ∧
    (∀ xs : List Float64,
      sumNumbers pf (.sliceFloat64 xs) = (xs.foldl (fun sum v => sum + v) 0, none)) ∧
    (∀ ns : List Int,
      sumNumbers pf (.sliceInt ns) =
        ((ns.map Float64.ofInt).foldl (fun sum v => sum + v) 0, none)) ∧
    sumNumbers pf (.sliceFloat64 []) = (0, none) ∧
    sumNumbers pf (.sliceInt []) = (0, none) ∧
    sumNumbers pf (.sliceFloat64 [Float64.ofDecimal 10 1, Float64.ofDecimal 32 1]) =
      (Float64.ofDecimal 42 1, none) ∧
    sumNumbers pf (.sliceInt [1, 2, 3, 4]) = (Float64.ofDecimal 100 1, none) := by
  refine ⟨rfl, fun _ => rfl, fun _ => rfl, fun _ => rfl, ?_, rfl, rfl, ?_, ?_⟩
  · intro ns
    simp only [sumNumbers, List.foldl_map]
  · simp only [sumNumbers]
    decide
  · simp only [sumNumbers]
    decide

theorem sumStringLoop_eq_foldl (pf : String → Option Float64) (xs : List String) (acc : Float64)
    (h : ∀ s ∈ xs, s ≠ "" → (pf s).isSome = true) :
    sumStringLoop pf acc xs =
      ((xs.filter (fun s => decide (s ≠ ""))).foldl
        (fun sum s => sum + (pf s).getD 0) acc, none) := by
  induction xs generalizing acc with
  | nil => rfl
  | cons v rest ih =>
    have hrest : ∀ s ∈ rest, s ≠ "" → (pf s).isSome = true :=
      fun s hs => h s (List.mem_cons_of_mem _ hs)
    by_cases hv : v = ""
    · simp only [sumStringLoop, hv, if_true]
      rw [ih acc hrest]
      simp
    · have hp := h v (List.mem_cons_self _ _) hv
      cases hpv : pf v with
      | none => simp [hpv] at hp
      | some num =>
        simp only [sumStringLoop, hv, if_false, hpv]
        rw [ih _ hrest]
        simp [hv, hpv]

theorem sumStringLoop_fails (pf : String → Option Float64) (xs : List String) (acc : Float64)
    (h : ∃ s ∈ xs, s ≠ "" ∧ pf s = none) : (sumStringLoop pf acc xs).2 ≠ none := by
  have hany : xs.any (fun s => decide (s ≠ "") && (pf s).isNone) = true := by
    obtain ⟨s, hs, hne, hp⟩ := h
    rw [List.any_eq_true]
    exact ⟨s, hs, by simp [hne, hp]⟩
  have := sumStringLoop_isSome pf xs acc
  rw [hany] at this
  intro hc
  rw [hc] at this
  simp at this

/-- C13: for strings, `sumNumbers` returns `0` for the empty string, the
parsed float for a non-empty string that parses, and fails with
`ErrUnsupportedValueType` for a non-empty string that does not parse
(`sum("a")`, as `"a"` does not parse); for every `[]string` it returns the
sum of the parses of its non-empty elements, empty elements being passed
over, and fails the whole call if any element does not parse
(`sum(["1","3"]) = 4.0`, as `"1"` and `"3"` parse to `1` and `3`).
`pf` is `strconv.ParseFloat`, `none` being its error. -/
theorem sumNumbers_strings (pf : String → Option Float64) :
    sumNumbers pf (.string "") = (0, none) ∧
    (∀ (s : String) (x : Float64), s ≠ "" → pf s = some x →
      sumNumbers pf (.string s) = (x, none)) ∧
    (∀ s : String, s ≠ "" → pf s = none →
      (sumNumbers pf (.string s)).1 = 0 ∧
        errorsIs (sumNumbers pf (.string s)).2 .UnsupportedValueType = true) ∧
    (pf "a" = none →
      (sumNumbers pf (.string "a")).1 = 0 ∧
        errorsIs (sumNumbers pf (.string "a")).2 .UnsupportedValueType = true) ∧
    (∀ xs : List String, (∀ s ∈ xs, s ≠ "" → (pf s).isSome = true) →
      sumNumbers pf (.sliceString xs) =
        ((xs.filter (fun s => decide (s ≠ ""))).foldl
          (fun sum s => sum + (pf s).getD 0) 0, none)) ∧
    (∀ xs : List String, (∃ s ∈ xs, s ≠ "" ∧ pf s = none) →
      (sumNumbers pf (.sliceString xs)).1 = 0 ∧
        errorsIs (sumNumbers pf (.sliceString xs)).2 .UnsupportedValueType = true) ∧
    (pf "1" = some (Float64.ofInt 1) → pf "3" = some (Float64.ofInt 3) →
      sumNumbers pf (.sliceString ["1", "3"]) = (Float64.ofInt 4, none)) := by
  have hfail : ∀ s : String, s ≠ "" → pf s = none →
      (sumNumbers pf (.string s)).1 = 0 ∧
        errorsIs (sumNumbers pf (.string s)).2 .UnsupportedValueType = true := by
    intro s hs hp
    apply sumNumbers_fail
    simp [sumNumbers, hs, hp]
  refine ⟨rfl, ?_, hfail, fun h => hfail "a" (by decide) h, ?_, ?_, ?_⟩
  · intro s x hs hp
    simp [sumNumbers, hs, hp]
  · intro xs h
    simp only [sumNumbers]
    exact sumStringLoop_eq_foldl pf xs 0 h
  · intro xs h
    apply sumNumbers_fail
    simp only [sumNumbers]
    exact sumStringLoop_fails pf xs 0 h
  · intro h1 h3
    have e1 : ("1" : String) ≠ "" := by decide
    have e3 : ("3" : String) ≠ "" := by decide
    simp only [sumNumbers, sumStringLoop, e1, e3, if_false, h1, h3]
    decide

/-- Witness of C13: a parser under which `"1"` and `"3"` parse and `"a"`
does not. -/
theorem sumNumbers_strings_witness :
    sumNumbers toyParseFloat (.sliceString ["1", "3"]) = (Float64.ofInt 4, none) ∧
    errorsIs (sumNumbers toyParseFloat (.string "a")).2 .UnsupportedValueType = true ∧
    sumNumbers toyParseFloat (.string "3") = (Float64.ofInt 3, none) ∧
    errorsIs (sumNumbers toyParseFloat (.sliceString ["1", "", "a"])).2
      .UnsupportedValueType = true ∧
    sumNumbers toyParseFloat (.sliceString ["1", "", "3"]) =
      ((["1", "", "3"].filter (fun s => decide (s ≠ ""))).foldl
        (fun sum s => sum + (toyParseFloat s).getD 0) 0, none) :=
  ⟨(sumNumbers_strings toyParseFloat).2.2.2.2.2.2 (by decide) (by decide),
   ((sumNumbers_strings toyParseFloat).2.2.2.1 (by decide)).2,
   (sumNumbers_strings toyParseFloat).2.1 "3" (Float64.ofInt 3) (by decide) (by decide),
   ((sumNumbers_strings toyParseFloat).2.2.2.2.2.1 ["1", "", "a"]
      ⟨"a", by decide, by decide, by decide⟩).2,
   (sumNumbers_strings toyParseFloat).2.2.2.2.1 ["1", "", "3"] (by decide)⟩

/-! ## Typed slices against `[]any` -/

theorem bitLenAux_pow_le (fuel n : Nat) (hn : n ≠ 0) (hf : n ≤ fuel) :
    2 ^ (bitLenAux fuel n - 1) ≤ n := by
  induction fuel generalizing n with
  | zero => omega
  | succ fuel ih =>
    simp only [bitLenAux, hn, if_false, Nat.add_sub_cancel]
    by_cases h2 : n / 2 = 0
    · have h0 : bitLenAux fuel (n / 2) = 0 := by
        rw [h2]
        cases fuel <;> simp [bitLenAux]
      rw [h0]
      simpa using Nat.pos_of_ne_zero hn
    · have hle : n / 2 ≤ fuel := by omega
      have := ih (n / 2) h2 hle
      have hpos : bitLenAux fuel (n / 2) ≠ 0 := by
        cases fuel with
        | zero => omega
        | succ f => simp [bitLenAux, h2]
      have hpow : 2 ^ bitLenAux fuel (n / 2) = 2 * 2 ^ (bitLenAux fuel (n / 2) - 1) := by
        rw [← pow_succ']
        congr 1
        omega
      rw [hpow]
      omega

theorem bitLen_pow_le (n : Nat) (hn : n ≠ 0) : 2 ^ (bitLen n - 1) ≤ n :=
  bitLenAux_pow_le n n hn (le_refl n)

/-- Rounding a non-zero number at or above the least exponent never gives a
zero, and gives a regular value. -/
theorem Float64.round_regular (neg : Bool) (m : Nat) (e : Int) (hm : m ≠ 0)
    (he : -1074 ≤ e) :
    (Float64.round neg m e).Regular ∧ ∀ s, Float64.round neg m e ≠ .zero s := by
  unfold Float64.round
  rw [if_neg hm]
  by_cases hs : max ((bitLen m : Int) - 53) (-1074 - e) ≤ 0
  · simp only [hs, if_true]
    have hge : -1074 - e ≤ max ((bitLen m : Int) - 53) (-1074 - e) := le_max_right _ _
    split_ifs
    · exact ⟨trivial, fun s h => by cases h⟩
    · refine ⟨⟨?_, by omega⟩, fun s h => by cases h⟩
      exact Nat.mul_ne_zero hm (by positivity)
  · simp only [hs, if_false]
    have hshift : max ((bitLen m : Int) - 53) (-1074 - e) = (bitLen m : Int) - 53 := by
      apply max_eq_left
      omega
    rw [hshift] at hs ⊢
    have hk : ((bitLen m : Int) - 53).toNat = bitLen m - 53 := by omega
    rw [hk]
    have hq : 1 ≤ m / 2 ^ (bitLen m - 53) := by
      rw [Nat.one_le_div_iff (by positivity)]
      calc 2 ^ (bitLen m - 53) ≤ 2 ^ (bitLen m - 1) :=
            Nat.pow_le_pow_right (by norm_num) (by omega)
        _ ≤ m := bitLen_pow_le m hm
    split_ifs <;> first
      | contradiction
      | omega
      | exact ⟨trivial, fun s h => by cases h⟩
      | exact ⟨⟨by omega, by omega⟩, fun s h => by cases h⟩

theorem Float64.round_sum_regular (S : Int) (e : Int) (he : -1074 ≤ e) :
    (if S = 0 then Float64.zero false
      else Float64.round (decide (S < 0)) S.natAbs e).Regular ∧
    (if S = 0 then Float64.zero false
      else Float64.round (decide (S < 0)) S.natAbs e) ≠ .zero true := by
  by_cases h0 : S = 0
  · simp only [h0, if_true]
    exact ⟨trivial, by decide⟩
  · simp only [h0, if_false]
    have hne : S.natAbs ≠ 0 := by
      rw [Ne, Int.natAbs_eq_zero]
      exact h0
    have hr := Float64.round_regular (decide (S < 0)) S.natAbs e hne he
    exact ⟨hr.1, hr.2 true⟩

theorem Float64.add_regular (x y : Float64) (hx : x.Regular) (hy : y.Regular) :
    (x + y).Regular ∧ (x + y = .zero true → x = .zero true ∧ y = .zero true) := by
  rw [Float64.add_def]
  cases x with
  | nan => cases y <;> exact ⟨trivial, fun h => by cases h⟩
  | inf a =>
    cases y with
    | inf b =>
      simp only [Float64.add]
      split_ifs <;> exact ⟨trivial, fun h => by cases h⟩
    | nan => exact ⟨trivial, fun h => by cases h⟩
    | zero b => exact ⟨trivial, fun h => by cases h⟩
    | finite s m e => exact ⟨trivial, fun h => by cases h⟩
  | zero a =>
    cases y with
    | zero b =>
      refine ⟨trivial, fun h => ?_⟩
      simp only [Float64.add, Float64.zero.injEq, Bool.and_eq_true] at h
      rw [h.1, h.2]
      exact ⟨rfl, rfl⟩
    | nan => exact ⟨trivial, fun h => by cases h⟩
    | inf b => exact ⟨trivial, fun h => by cases h⟩
    | finite s m e => exact ⟨hy, fun h => by cases h⟩
  | finite s1 m1 e1 =>
    cases y with
    | finite s2 m2 e2 =>
      simp only [Float64.add]
      have hmin : -1074 ≤ min e1 e2 := le_min hx.2 hy.2
      exact ⟨(Float64.round_sum_regular _ _ hmin).1,
        fun h => absurd h (Float64.round_sum_regular _ _ hmin).2⟩
    | nan => exact ⟨trivial, fun h => by cases h⟩
    | inf b => exact ⟨trivial, fun h => by cases h⟩
    | zero b => exact ⟨hx, fun h => by cases h⟩

/-- The `[]string` loop and the `[]any` loop over the same strings agree,
from a running total that is not the negative zero. -/
theorem sumStringLoop_sameOutcome (pf : String → Option Float64)
    (hpf : ∀ s x, pf s = some x → x.Regular) (ss : List String) (acc : Float64)
    (hreg : acc.Regular) (hacc : acc ≠ .zero true) :
    sameOutcome (sumStringLoop pf acc ss) (sumAnyLoop pf acc (ss.map .string)) := by
  induction ss generalizing acc with
  | nil => exact Or.inl ⟨rfl, rfl, rfl⟩
  | cons v rest ih =>
    by_cases hv : v = ""
    · have h1 : sumStringLoop pf acc (v :: rest) = sumStringLoop pf acc rest := by
        simp [sumStringLoop, hv]
      have h2 : sumAnyLoop pf acc ((v :: rest).map .string) =
          sumAnyLoop pf acc (rest.map .string) := by
        simp only [List.map_cons, sumAnyLoop, sumNumbers, hv, if_true]
        rw [Float64.add_zero_eq acc hacc]
      rw [h1, h2]
      exact ih acc hreg hacc
    · cases hp : pf v with
      | none =>
        have h1 : sumStringLoop pf acc (v :: rest) =
            (0, some (.wrapped "could not parse string to float" ErrUnsupportedValueType)) := by
          simp [sumStringLoop, hv, hp]
        have h2 : sumAnyLoop pf acc ((v :: rest).map .string) =
            (0, some (.wrapped "could not sum numbers" ErrUnsupportedValueType)) := by
          simp [sumAnyLoop, sumNumbers, hv, hp]
        rw [h1, h2]
        exact Or.inr ⟨rfl, rfl, rfl, rfl⟩
      | some x =>
        have h1 : sumStringLoop pf acc (v :: rest) = sumStringLoop pf (acc + x) rest := by
          simp [sumStringLoop, hv, hp]
        have h2 : sumAnyLoop pf acc ((v :: rest).map .string) =
            sumAnyLoop pf (acc + x) (rest.map .string) := by
          simp [sumAnyLoop, sumNumbers, hv, hp]
        rw [h1, h2]
        have hadd := Float64.add_regular acc x hreg (hpf v x hp)
        exact ih (acc + x) hadd.1 (fun h => hacc (hadd.2 h).1)

theorem sumAnyLoop_float64 (pf : String → Option Float64) (xs : List Float64) (acc : Float64) :
    sumAnyLoop pf acc (xs.map .float64) = (xs.foldl (fun sum v => sum + v) acc, none) := by
  induction xs generalizing acc with
  | nil => rfl
  | cons v rest ih => simp only [List.map_cons, sumAnyLoop, sumNumbers, List.foldl_cons, ih]

theorem sumAnyLoop_int (pf : String → Option Float64) (ns : List Int) (acc : Float64) :
    sumAnyLoop pf acc (ns.map .int) =
      (ns.foldl (fun sum v => sum + Float64.ofInt v) acc, none) := by
  induction ns generalizing acc with
  | nil => rfl
  | cons v rest ih => simp only [List.map_cons, sumAnyLoop, sumNumbers, List.foldl_cons, ih]

/-- C18: the typed-slice branches of `sumNumbers` agree with the generic
branch: for every list of `float64`, of `int`, or of `string`, `sumNumbers`
on the homogeneous slice and `sumNumbers` on the `[]any` holding the same
elements in the same order either both fail with `ErrUnsupportedValueType`
or both succeed with the same total.  `pf` is `strconv.ParseFloat`, which
returns values of the `float64` format. -/
theorem sumNumbers_typed_slice_agrees (pf : String → Option Float64)
    (hpf : ∀ s x, pf s = some x → x.Regular) :
    (∀ xs : List Float64,
      sumNumbers pf (.sliceFloat64 xs) = sumNumbers pf (.sliceAny (xs.map .float64)) ∧
      sameOutcome (sumNumbers pf (.sliceFloat64 xs))
        (sumNumbers pf (.sliceAny (xs.map .float64)))) ∧
    (∀ ns : List Int,
      sumNumbers pf (.sliceInt ns) = sumNumbers pf (.sliceAny (ns.map .int)) ∧
      sameOutcome (sumNumbers pf (.sliceInt ns))
        (sumNumbers pf (.sliceAny (ns.map .int)))) ∧
    (∀ ss : List String,
      sameOutcome (sumNumbers pf (.sliceString ss))
        (sumNumbers pf (.sliceAny (ss.map .string)))) := by
  refine ⟨fun xs => ?_, fun ns => ?_, fun ss => ?_⟩
  · have h : sumNumbers pf (.sliceFloat64 xs) = sumNumbers pf (.sliceAny (xs.map .float64)) := by
      simp only [sumNumbers, sumAnyLoop_float64]
    refine ⟨h, ?_⟩
    rw [← h]
    exact Or.inl ⟨rfl, rfl, rfl⟩
  · have h : sumNumbers pf (.sliceInt ns) = sumNumbers pf (.sliceAny (ns.map .int)) := by
      simp only [sumNumbers, sumAnyLoop_int]
    refine ⟨h, ?_⟩
    rw [← h]
    exact Or.inl ⟨rfl, rfl, rfl⟩
  · simp only [sumNumbers]
    exact sumStringLoop_sameOutcome pf hpf ss 0 trivial (by decide)

theorem Float64.ofInt_regular (v : Int) : (Float64.ofInt v).Regular := by
  unfold Float64.ofInt
  by_cases h : v.natAbs = 0
  · rw [h]
    exact trivial
  · exact (Float64.round_regular _ _ _ h (by decide)).1

theorem toyParseFloat_regular : ∀ s x, toyParseFloat s = some x → x.Regular := by
  intro s x h
  unfold toyParseFloat at h
  split_ifs at h
  · cases h
    exact Float64.ofInt_regular 1
  · cases h
    exact Float64.ofInt_regular 3

/-- Witness of C18: the slices `["1", "", "3"]` and `["1", "a"]`. -/
theorem sumNumbers_typed_slice_agrees_witness :
    sameOutcome (sumNumbers toyParseFloat (.sliceString ["1", "", "3"]))
      (sumNumbers toyParseFloat (.sliceAny [.string "1", .string "", .string "3"])) ∧
    sameOutcome (sumNumbers toyParseFloat (.sliceString ["1", "a"]))
      (sumNumbers toyParseFloat (.sliceAny [.string "1", .string "a"])) :=
  ⟨(sumNumbers_typed_slice_agrees toyParseFloat toyParseFloat_regular).2.2 ["1", "", "3"],
   (sumNumbers_typed_slice_agrees toyParseFloat toyParseFloat_regular).2.2 ["1", "a"]⟩

/-! ## `DefaultService.Sum` -/

theorem be32_length (w : Nat) : (be32 w).length = 4 := rfl

theorem sha256Sum256_length (msg : List Nat) : (sha256Sum256 msg).length = 32 := by
  simp [sha256Sum256, be32_length]

theorem hexDigit_mem (n : Nat) (hn : n < 16) : hexDigit n ∈ "0123456789abcdef".data := by
  interval_cases n <;> decide

theorem sprintfX_length (bs : List Nat) : (sprintfX bs).length = 2 * bs.length := by
  induction bs with
  | nil => rfl
  | cons b rest ih =>
    simp only [sprintfX, String.length_append, ih, List.length_cons]
    have : (String.mk [hexDigit (b / 16 % 16), hexDigit (b % 16)]).length = 2 := rfl
    omega

theorem sprintfX_chars (bs : List Nat) :
    ∀ c ∈ (sprintfX bs).data, c ∈ "0123456789abcdef".data := by
  induction bs with
  | nil =>
    intro c hc
    simp [sprintfX] at hc
  | cons b rest ih =>
    intro c hc
    simp only [sprintfX, String.data_append, List.mem_append, List.mem_cons,
      List.mem_singleton, List.not_mem_nil, or_false] at hc
    rcases hc with (rfl | rfl) | hc
    · exact hexDigit_mem _ (Nat.mod_lt _ (by norm_num))
    · exact hexDigit_mem _ (Nat.mod_lt _ (by norm_num))
    · exact ih c hc

theorem digitChar_props (d : Nat) (hd : d < 10) :
    (digitChar d).isDigit = true ∧ (digitChar d != '.') = true ∧ digitChar d ≠ '-' ∧
      (digitChar d).toNat - 48 = d ∧ (digitChar d = '0' ↔ d = 0) := by
  interval_cases d <;> decide

theorem decimalAux_digits (fuel n : Nat) (acc : List Char)
    (hacc : ∀ c ∈ acc, c.isDigit = true) :
    ∀ c ∈ decimalAux fuel n acc, c.isDigit = true := by
  induction fuel generalizing n acc with
  | zero => exact hacc
  | succ fuel ih =>
    simp only [decimalAux]
    split_ifs with h
    · intro c hc
      rcases List.mem_cons.1 hc with rfl | hc
      · exact (digitChar_props n h).1
      · exact hacc c hc
    · apply ih
      intro c hc
      rcases List.mem_cons.1 hc with rfl | hc
      · exact (digitChar_props _ (Nat.mod_lt _ (by norm_num))).1
      · exact hacc c hc

theorem decimalAux_value (fuel n : Nat) (acc : List Char) (h : n < fuel) :
    (decimalAux fuel n acc).foldl (fun v c => 10 * v + (c.toNat - 48)) 0 =
      acc.foldl (fun v c => 10 * v + (c.toNat - 48)) n := by
  induction fuel generalizing n acc with
  | zero => omega
  | succ fuel ih =>
    simp only [decimalAux]
    split_ifs with h10
    · simp only [List.foldl_cons, (digitChar_props n h10).2.2.2.1]
      congr 1
      omega
    · rw [ih (n / 10) _ (by omega)]
      simp only [List.foldl_cons, (digitChar_props _ (Nat.mod_lt n (by norm_num))).2.2.2.1]
      congr 1
      omega

theorem decimalAux_head (fuel n : Nat) (acc : List Char) (h : n < fuel) (hn : n ≠ 0) :
    ∃ c rest, decimalAux fuel n acc = c :: rest ∧ c ≠ '0' ∧ c.isDigit = true := by
  induction fuel generalizing n acc with
  | zero => omega
  | succ fuel ih =>
    simp only [decimalAux]
    split_ifs with h10
    · refine ⟨_, _, rfl, ?_, (digitChar_props n h10).1⟩
      intro hc
      exact hn ((digitChar_props n h10).2.2.2.2.1 hc)
    · exact ih (n / 10) _ (by omega) (by omega)

/-- The digits of `decimal n`: all decimal digits, not empty, no superfluous
leading zero, and they write `n`. -/
theorem decimal_props (n : Nat) :
    (∀ c ∈ decimal n, c.isDigit = true) ∧ decimal n ≠ [] ∧
      (decimal n = ['0'] ∨ (decimal n).head? ≠ some '0') ∧ digitsValue (decimal n) = n := by
  refine ⟨decimalAux_digits _ _ _ (by simp), ?_, ?_, ?_⟩
  · by_cases hn : n = 0
    · subst hn
      decide
    · obtain ⟨c, rest, h, -, -⟩ := decimalAux_head (n + 1) n [] (by omega) hn
      unfold decimal
      rw [h]
      simp
  · by_cases hn : n = 0
    · subst hn
      exact Or.inl rfl
    · obtain ⟨c, rest, h, hc, -⟩ := decimalAux_head (n + 1) n [] (by omega) hn
      right
      unfold decimal
      rw [h]
      simpa using hc
  · unfold digitsValue decimal
    rw [decimalAux_value (n + 1) n [] (by omega)]
    rfl

theorem sixDigits_props (k : Nat) (hk : k < 10 ^ 6) :
    (sixDigits k).length = 6 ∧ (∀ c ∈ sixDigits k, c.isDigit = true) ∧
      ∀ v : Nat, (sixDigits k).foldl (fun v c => 10 * v + (c.toNat - 48)) v =
        10 ^ 6 * v + k := by
  have hd : ∀ d, d < 10 → (digitChar d).isDigit = true := fun d h => (digitChar_props d h).1
  have hv : ∀ d, d < 10 → (digitChar d).toNat - 48 = d := fun d h => (digitChar_props d h).2.2.2.1
  have hm : ∀ a : Nat, a % 10 < 10 := fun a => Nat.mod_lt a (by norm_num)
  refine ⟨rfl, ?_, ?_⟩
  · intro c hc
    simp only [sixDigits, List.mem_cons, List.mem_singleton, List.not_mem_nil, or_false] at hc
    rcases hc with rfl | rfl | rfl | rfl | rfl | rfl <;> exact hd _ (hm _)
  · intro v
    simp only [sixDigits, List.foldl_cons, List.foldl_nil, hv _ (hm _)]
    norm_num at hk ⊢
    omega

theorem takeWhile_not_point (ip fp : List Char) (hip : ∀ c ∈ ip, c.isDigit = true) :
    (ip ++ '.' :: fp).takeWhile (fun c => c != '.') = ip ∧
      (ip ++ '.' :: fp).dropWhile (fun c => c != '.') = '.' :: fp := by
  induction ip with
  | nil => exact ⟨rfl, rfl⟩
  | cons c rest ih =>
    have hc : (c != '.') = true := by
      have h1 : c.isDigit = true := hip c (List.mem_cons_self _ _)
      have h2 : c ≠ '.' := by
        intro h
        rw [h] at h1
        exact absurd h1 (by decide)
      simpa using h2
    have ih' := ih (fun d hd => hip d (List.mem_cons_of_mem _ hd))
    simp only [List.cons_append, List.takeWhile_cons, List.dropWhile_cons, hc, if_true]
    exact ⟨by rw [ih'.1], ih'.2⟩

/-- A text made of an optional minus sign, digits without a superfluous
leading zero, a point and six digits is in the notation, and denotes the
number written by its digits. -/
theorem fixedPoint6_of_parts (neg : Bool) (ip fp : List Char)
    (hip : ∀ c ∈ ip, c.isDigit = true) (hne : ip ≠ [])
    (hlead : ip = ['0'] ∨ ip.head? ≠ some '0')
    (hfp : ∀ c ∈ fp, c.isDigit = true) (hlen : fp.length = 6) :
    isFixedPoint6 (String.mk ((if neg then ['-'] else []) ++ ip ++ '.' :: fp)) = true ∧
    ((String.mk ((if neg then ['-'] else []) ++ ip ++ '.' :: fp)).data.head? = some '-' ↔
      neg = true) ∧
    (String.mk ((if neg then ['-'] else []) ++ ip ++ '.' :: fp)).data.filter Char.isDigit
      = ip ++ fp := by
  obtain ⟨c0, rest0, rfl⟩ := List.exists_cons_of_ne_nil hne
  have hc0 : c0.isDigit = true := hip c0 (List.mem_cons_self _ _)
  have hc0m : c0 ≠ '-' := by
    intro h
    rw [h] at hc0
    exact absurd hc0 (by decide)
  have hbody : unsignedPart (String.mk ((if neg then ['-'] else []) ++ (c0 :: rest0) ++ '.' :: fp))
      = (c0 :: rest0) ++ '.' :: fp := by
    cases neg with
    | true => simp [unsignedPart]
    | false => simp [unsignedPart, hc0m]
  have htd := takeWhile_not_point (c0 :: rest0) fp hip
  refine ⟨?_, ?_, ?_⟩
  · simp only [isFixedPoint6, hbody, htd.1, htd.2]
    have h1 : (c0 :: rest0).all Char.isDigit = true := List.all_eq_true.2 hip
    have h2 : fp.all Char.isDigit = true := List.all_eq_true.2 hfp
    simp [h1, h2, hlen]
    simpa using hlead
  · cases neg with
    | true => simp
    | false => simp [hc0m]
  · have hfil : ∀ l : List Char, (∀ c ∈ l, c.isDigit = true) → l.filter Char.isDigit = l :=
      fun l hl => List.filter_eq_self.2 hl
    have hp : Char.isDigit '.' = false := by decide
    have hm : Char.isDigit '-' = false := by decide
    cases neg with
    | true =>
      simp only [if_true, List.filter_append, List.filter_cons, hp, hm, List.filter_nil,
        hfil _ hip, hfil _ hfp]
      simp
    | false =>
      simp only [List.filter_append, List.filter_cons, hp, List.filter_nil,
        hfil _ hip, hfil _ hfp]
      simp

/-- The number of millionths that `sprintfF` prints is the nearest integer to
the scaled value, ties to even. -/
theorem scaledMillionths_nearest (m : Nat) (e : Int) :
    IsNearestMillionths m e (scaledMillionths m e) := by
  unfold IsNearestMillionths scaledMillionths
  by_cases he : 0 ≤ e
  · have h0 : (-e).toNat = 0 := by omega
    simp only [he, if_true, h0, pow_zero, Nat.mul_one]
    have : m * 2 ^ e.toNat * 10 ^ 6 = m * 10 ^ 6 * 2 ^ e.toNat := by ring
    rw [this]
    refine ⟨by omega, by omega, ?_⟩
    rintro (h | h) <;> omega
  · have h0 : e.toNat = 0 := by omega
    simp only [he, if_false, h0, pow_zero, Nat.mul_one]
    generalize hden : 2 ^ (-e).toNat = den
    generalize hnum : m * 10 ^ 6 = num
    have hdiv : den * (num / den) + num % den = num := Nat.div_add_mod num den
    have hpos : 0 < den := by
      rw [← hden]
      positivity
    have hlt : num % den < den := Nat.mod_lt _ hpos
    generalize hq : num / den = q at hdiv ⊢
    generalize hr : num % den = r at hdiv hlt ⊢
    have hqd : q * den = den * q := Nat.mul_comm _ _
    split_ifs with hup
    · have hexp : (q + 1) * den = den * q + den := by ring
      rw [hexp]
      refine ⟨by omega, by omega, ?_⟩
      rintro (h | h)
      · rcases hup with h1 | ⟨h1, h2⟩ <;> omega
      · omega
    · rw [hqd]
      have hno : ¬ (2 * r > den) ∧ ¬ (2 * r = den ∧ q % 2 = 1) := not_or.1 hup
      refine ⟨by omega, by omega, ?_⟩
      rintro (h | h)
      · omega
      · have h2r : 2 * r = den := by omega
        have := hno.2
        omega

/-- The text printed for a finite value is in fixed-point notation with six
fractional digits, carries a minus sign exactly for a negative value, and
denotes the number of millionths nearest to the value, ties to even. -/
theorem sprintfF_finite (neg : Bool) (m : Nat) (e : Int) :
    isFixedPoint6 (sprintfF (.finite neg m e)) = true ∧
    ((sprintfF (.finite neg m e)).data.head? = some '-' ↔ neg = true) ∧
    IsNearestMillionths m e (millionthsOf (sprintfF (.finite neg m e))) := by
  have hk : scaledMillionths m e % 10 ^ 6 < 10 ^ 6 := Nat.mod_lt _ (by norm_num)
  obtain ⟨hd1, hd2, hd3, hd4⟩ := decimal_props (scaledMillionths m e / 10 ^ 6)
  obtain ⟨hs1, hs2, hs3⟩ := sixDigits_props (scaledMillionths m e % 10 ^ 6) hk
  obtain ⟨h1, h2, h3⟩ := fixedPoint6_of_parts neg (decimal (scaledMillionths m e / 10 ^ 6))
    (sixDigits (scaledMillionths m e % 10 ^ 6)) hd1 hd2 hd3 hs2 hs1
  refine ⟨h1, h2, ?_⟩
  have hval : millionthsOf (sprintfF (.finite neg m e)) = scaledMillionths m e := by
    unfold millionthsOf
    show digitsValue ((String.mk ((if neg then ['-'] else []) ++
      decimal (scaledMillionths m e / 10 ^ 6) ++
      '.' :: sixDigits (scaledMillionths m e % 10 ^ 6))).data.filter Char.isDigit) = _
    rw [h3]
    unfold digitsValue at hd4 ⊢
    rw [List.foldl_append, hd4, hs3]
    have := Nat.div_add_mod (scaledMillionths m e) (10 ^ 6)
    omega
  rw [hval]
  exact scaledMillionths_nearest m e

set_option maxRecDepth 100000 in
/-- C15 (amended): for every input on which `sumNumbers` succeeds with total
`t`, `DefaultService.Sum` returns the 64-character lowercase hexadecimal
SHA-256 digest of the text that the verb `%f` prints for `t`: for a finite
`t`, `t` in fixed-point notation with six fractional digits (the nearest
number of millionths, ties to even, with a minus sign exactly when `t` is
negative), `0.000000` or `-0.000000` for a zero, and `NaN`, `+Inf` or `-Inf`
for a total that is not a number; for `[]float64{1, 2, 3}` the result is
`"2270ab850480a8ade7647dc3066dde96209bc0314b4847a619e1231e334c00ad"`; for
every input on which `sumNumbers` fails, `Sum` returns the empty string and
an error that is `ErrUnsupportedValueType`.  The digest function is checked
on the empty message, on `"abc"` and on a message of two blocks. -/
theorem sum_returns_digest (pf : String → Option Float64) :
    (∀ (v : GoValue) (t : Float64), sumNumbers pf v = (t, none) →
      DefaultService.Sum pf v =
        (sprintfX (sha256Sum256 (asciiBytes (sprintfF t))), none) ∧
      (DefaultService.Sum pf v).1.length = 64 ∧
      ∀ c ∈ (DefaultService.Sum pf v).1.data, c ∈ "0123456789abcdef".data) ∧
    (∀ (neg : Bool) (m : Nat) (e : Int),
      isFixedPoint6 (sprintfF (.finite neg m e)) = true ∧
      ((sprintfF (.finite neg m e)).data.head? = some '-' ↔ neg = true) ∧
      IsNearestMillionths m e (millionthsOf (sprintfF (.finite neg m e)))) ∧
    sprintfF (.zero false) = "0.000000" ∧ sprintfF (.zero true) = "-0.000000" ∧
    sprintfF .nan = "NaN" ∧ sprintfF (.inf false) = "+Inf" ∧ sprintfF (.inf true) = "-Inf" ∧
    sprintfX (sha256Sum256 (asciiBytes "")) =
      "e3b0c44298fc1c149afbf4c8996fb92427ae41e4649b934ca495991b7852b855" ∧
    sprintfX (sha256Sum256 (asciiBytes "abc")) =
      "ba7816bf8f01cfea414140de5dae2223b00361a396177a9cb410ff61f20015ad" ∧
    sprintfX (sha256Sum256
        (asciiBytes "abcdbcdecdefdefgefghfghighijhijkijkljklmklmnlmnomnopnopq")) =
      "248d6a61d20638b8e5c026930c3e6039a33ce45964ff2167f6ecedd419db06c1" ∧
    DefaultService.Sum pf (.sliceFloat64 [Float64.ofInt 1, Float64.ofInt 2, Float64.ofInt 3]) =
      ("2270ab850480a8ade7647dc3066dde96209bc0314b4847a619e1231e334c00ad", none) ∧
    (∀ v : GoValue, (sumNumbers pf v).2 ≠ none →
      (DefaultService.Sum pf v).1 = "" ∧
        errorsIs (DefaultService.Sum pf v).2 .UnsupportedValueType = true) := by
  refine ⟨?_, sprintfF_finite, rfl, rfl, rfl, rfl, rfl, by decide, by decide, by decide,
    ?_, ?_⟩
  · intro v t h
    have hs : DefaultService.Sum pf v =
        (sprintfX (sha256Sum256 (asciiBytes (sprintfF t))), none) := by
      simp [DefaultService.Sum, h]
    rw [hs]
    refine ⟨rfl, ?_, sprintfX_chars _⟩
    show (sprintfX (sha256Sum256 (asciiBytes (sprintfF t)))).length = 64
    rw [sprintfX_length, sha256Sum256_length]
  · simp only [DefaultService.Sum, sumNumbers]
    decide
  · intro v h
    rcases hv : sumNumbers pf v with ⟨t, _ | e⟩
    · rw [hv] at h
      exact absurd rfl h
    · have hfail := (sumNumbers_fail pf v h).2
      rw [hv] at hfail
      have hs : DefaultService.Sum pf v =
          ("", some (.wrapped "could not sum numbers" e)) := by
        simp [DefaultService.Sum, hv]
      rw [hs]
      exact ⟨rfl, hfail⟩

set_option maxRecDepth 100000 in
/-- Witness of C15 (amended): the input `[]float64{1.0, 3.2}` of the tests,
whose total `4.2` is hashed as `"4.200000"`, and the failing input
`[]any{1.0, "a"}`. -/
theorem sum_returns_digest_witness :
    DefaultService.Sum toyParseFloat
        (.sliceFloat64 [Float64.ofDecimal 10 1, Float64.ofDecimal 32 1]) =
      (sprintfX (sha256Sum256 (asciiBytes (sprintfF (Float64.ofDecimal 42 1)))), none) ∧
    sprintfF (Float64.ofDecimal 42 1) = "4.200000" ∧
    (DefaultService.Sum toyParseFloat (.sliceAny [.float64 (.ofInt 1), .string "a"])).1 = "" ∧
    errorsIs (DefaultService.Sum toyParseFloat
      (.sliceAny [.float64 (.ofInt 1), .string "a"])).2 .UnsupportedValueType = true :=
  ⟨((sum_returns_digest toyParseFloat).1
      (.sliceFloat64 [Float64.ofDecimal 10 1, Float64.ofDecimal 32 1])
      (Float64.ofDecimal 42 1) (by decide)).1,
   by decide,
   (sum_returns_digest toyParseFloat).2.2.2.2.2.2.2.2.2.2.2
      (.sliceAny [.float64 (.ofInt 1), .string "a"]) (by decide)⟩

set_option maxRecDepth 100000 in
/-- Counterexample to C15 as stated: the input
`[1.7976931348623157e308, 1.7976931348623157e308]` sums successfully to
`+Inf`; the text printed for that total is `+Inf`, which is not in
fixed-point notation with six fractional digits, and `Sum` returns the
digest of that text. -/
theorem sum_of_infinite_total_hashes_inf :
    sumNumbers toyParseFloat
        (.sliceAny [.float64 Float64.maxFinite, .float64 Float64.maxFinite]) =
      (.inf false, none) ∧
    sprintfF (.inf false) = "+Inf" ∧
    isFixedPoint6 (sprintfF (.inf false)) = false ∧
    DefaultService.Sum toyParseFloat
        (.sliceAny [.float64 Float64.maxFinite, .float64 Float64.maxFinite]) =
      ("6efbe35016eda846053b72eb20887841e07b6b2fab558fdb3ed3602ee2100b9c", none) := by
  decide

end Service
